import Mathlib

/-!
Verification of the meme-generation HTTP service (`src/index.ts`).

The development shallowly embeds the service's data model and operations:

* JS numbers are modelled exactly as decimal values `m * 10 ^ e` (`Dec`),
  extended with `NaN` and the two infinities (`JsNum`).  Every number this
  program manipulates is produced by parsing a decimal literal or by the
  `Number(...)` coercion, so the decimal model is exact; binary floating-point
  rounding never enters the statements proved here and is not modelled.
  Program-produced numbers are kept in canonical form (`Dec.isCanon`), under
  which structural equality coincides with numeric equality.
* JSON values (`Json`) are the results of `JSON.parse`: null, booleans,
  numbers, strings, arrays, objects. `Option Json` models a possibly
  `undefined` JS value (`none` = `undefined`).
* Effectful HTTP calls are abstracted by oracles (`HttpResp`, `World`) giving
  the response each upstream returns; everything done to those responses is
  modelled from the source.
* Thrown exceptions are modelled with `Except String`; the route-level
  `try/catch` is the match on that `Except`.

All recursive functions are structurally recursive (on an explicit fuel
argument where needed) so that every definition evaluates inside the kernel.
-/

namespace Memegen

/-! ## Decimal numbers: the exact model of the JS numbers in this program -/

/-- Strip factors of 10 from `m`, moving them into the exponent `e`.
Fuel-structural so it reduces in the kernel; `fuel = m.natAbs` always
suffices since `10 ^ k ∣ m` forces `k < |m|`. -/
def stripTens : ℕ → ℤ → ℤ → ℤ × ℤ
  | 0, m, e => (m, e)
  | fuel+1, m, e =>
      if m ≠ 0 ∧ m % 10 = 0 then stripTens fuel (m / 10) (e + 1) else (m, e)

/-- A JS number value, represented exactly as `m * 10 ^ e`. -/
structure Dec where
  m : ℤ
  e : ℤ
deriving DecidableEq

/-- Canonical form: zero is `⟨0, 0⟩`, otherwise `10 ∤ m`.  Each JS number has
exactly one canonical representation, so on canonical values structural
equality is numeric equality.  All numbers produced by the modelled program
are canonical. -/
def Dec.isCanon (d : Dec) : Prop := d.m % 10 ≠ 0 ∨ (d.m = 0 ∧ d.e = 0)

instance (d : Dec) : Decidable d.isCanon := by unfold Dec.isCanon; infer_instance

/-- Canonicalizing constructor: the canonical `Dec` denoting `m * 10 ^ e`. -/
def mkDec (m e : ℤ) : Dec :=
  if m = 0 then ⟨0, 0⟩
  else ⟨(stripTens m.natAbs m e).1, (stripTens m.natAbs m e).2⟩

/-- The zero number. -/
def decZero : Dec := ⟨0, 0⟩

/-- The JS `number` type: NaN, the infinities, or a finite (decimal) value. -/
inductive JsNum where
  | nan
  | inf
  | negInf
  | fin (d : Dec)
deriving DecidableEq

/-- Truthiness of a JS number: `0` and `NaN` are falsy. -/
def JsNum.truthy : JsNum → Bool
  | .nan => false
  | .inf => true
  | .negInf => true
  | .fin d => d.m ≠ 0

/-! ## Digit and character helpers -/

def digitChar : ℕ → Char
  | 0 => '0' | 1 => '1' | 2 => '2' | 3 => '3' | 4 => '4'
  | 5 => '5' | 6 => '6' | 7 => '7' | 8 => '8' | 9 => '9'
  | _ => '0'

def digitVal (c : Char) : ℕ := c.toNat - 48

def isDig (c : Char) : Bool := 48 ≤ c.toNat && c.toNat ≤ 57

def isHexDig (c : Char) : Bool :=
  isDig c || (97 ≤ c.toNat && c.toNat ≤ 102) || (65 ≤ c.toNat && c.toNat ≤ 70)

def hexVal (c : Char) : ℕ :=
  if isDig c then c.toNat - 48
  else if 97 ≤ c.toNat then c.toNat - 87
  else c.toNat - 55

/-- Lower-case hex digit characters (as produced by `JSON.stringify`'s
`\u00XX` escapes). -/
def hexChar : ℕ → Char
  | 0 => '0' | 1 => '1' | 2 => '2' | 3 => '3' | 4 => '4'
  | 5 => '5' | 6 => '6' | 7 => '7' | 8 => '8' | 9 => '9'
  | 10 => 'a' | 11 => 'b' | 12 => 'c' | 13 => 'd' | 14 => 'e' | 15 => 'f'
  | _ => '0'

/-- Decimal digits of `n`, least-significant first; fuel-structural
(`fuel = n` suffices for `n ≥ 1`). -/
def natCharsAux : ℕ → ℕ → List Char
  | 0, _ => []
  | _+1, 0 => []
  | fuel+1, n+1 => digitChar ((n+1) % 10) :: natCharsAux fuel ((n+1) / 10)

/-- Decimal digit string of `n`, most-significant first, no leading zeros. -/
def natChars (n : ℕ) : List Char :=
  if n = 0 then ['0'] else (natCharsAux n n).reverse

/-- Value of a most-significant-first digit string. -/
def valDigits (l : List Char) : ℕ := l.foldl (fun a c => 10 * a + digitVal c) 0

/-! ## JSON values and JS coercions -/

mutual
/-- A parsed JSON value.  Arrays and objects carry their own list types so
that all recursion over JSON stays structural (and kernel-evaluable). -/
inductive Json where
  | null
  | bool (b : Bool)
  | num (d : Dec)
  | str (s : String)
  | arr (elems : JsonArr)
  | obj (fields : JsonObj)

/-- A list of JSON array elements. -/
inductive JsonArr where
  | nil
  | cons (hd : Json) (tl : JsonArr)

/-- An ordered list of JSON object fields. -/
inductive JsonObj where
  | nil
  | cons (key : String) (val : Json) (tl : JsonObj)
end

def JsonArr.length : JsonArr → ℕ
  | .nil => 0
  | .cons _ t => t.length + 1

def JsonArr.get? : JsonArr → ℕ → Option Json
  | .nil, _ => none
  | .cons h _, 0 => some h
  | .cons _ t, n+1 => t.get? n

/-- `Array.prototype.slice(0, n)`: the first `n` elements. -/
def JsonArr.take : ℕ → JsonArr → JsonArr
  | 0, _ => .nil
  | _, .nil => .nil
  | n+1, .cons h t => .cons h (JsonArr.take n t)

def JsonArr.toList : JsonArr → List Json
  | .nil => []
  | .cons h t => h :: t.toList

def JsonObj.revAppend : JsonObj → JsonObj → JsonObj
  | .nil, acc => acc
  | .cons k v t, acc => t.revAppend (.cons k v acc)

/-- Reverse an object field list. -/
def JsonObj.reverse (o : JsonObj) : JsonObj := o.revAppend .nil

def JsonArr.revAppend : JsonArr → JsonArr → JsonArr
  | .nil, acc => acc
  | .cons h t, acc => t.revAppend (.cons h acc)

def JsonArr.reverse (l : JsonArr) : JsonArr := l.revAppend .nil

/-- JS truthiness of a JSON value (`NaN` cannot occur inside `Json`:
`JSON.parse` yields only finite numbers in the exact decimal model). -/
def jsTruthy : Json → Bool
  | .null => false
  | .bool b => b
  | .num d => d.m ≠ 0
  | .str s => s ≠ ""
  | .arr _ => true
  | .obj _ => true

/-- Truthiness of a possibly-`undefined` value. -/
def jsTruthyOpt : Option Json → Bool
  | none => false
  | some j => jsTruthy j

/-- Last binding of key `k` (later duplicate keys overwrite earlier ones,
as in JS object literals built by `JSON.parse`). -/
def lookupLast (k : String) : JsonObj → Option Json
  | .nil => none
  | .cons k' v rest =>
      match lookupLast k rest with
      | some r => some r
      | none => if k' = k then some v else none

/-- Property access `j[k]` on a value known not to be `null`/`undefined`:
objects look up the key, everything else yields `undefined`. -/
def objGet (j : Json) (k : String) : Option Json :=
  match j with
  | .obj fs => lookupLast k fs
  | _ => none

/-- Property access `j.k` where `j = null` throws a `TypeError` (modelled as
`Except.error` carrying the Node.js message). -/
def jsField (j : Json) (k : String) : Except String (Option Json) :=
  match j with
  | .null => .error ("TypeError: Cannot read properties of null (reading '" ++ k ++ "')")
  | _ => .ok (objGet j k)

/-- Optional chaining `o?.k`: `undefined`/`null` short-circuit to `undefined`. -/
def optField (o : Option Json) (k : String) : Option Json :=
  match o with
  | none => none
  | some .null => none
  | some j => objGet j k

/-- Optional chained index `o?.[i]`: arrays index positionally, objects look
up the decimal string key, strings index their characters. -/
def optIndex (o : Option Json) (i : ℕ) : Option Json :=
  match o with
  | none => none
  | some .null => none
  | some (.arr l) => l.get? i
  | some (.obj fs) => lookupLast (String.mk (natChars i)) fs
  | some (.str s) => (s.data.get? i).map (fun c => .str (String.mk [c]))
  | some _ => none


/-- Digit string of the (unsigned) decimal value `n * 10 ^ e`: append zeros
for a nonnegative exponent, otherwise place the decimal point `-e` digits
from the right (padding with leading zeros when necessary). -/
def decCharsNat (n : ℕ) (e : ℤ) : List Char :=
  let ds := natChars n
  if 0 ≤ e then ds ++ List.replicate e.toNat '0'
  else
    let k := (-e).toNat
    if k < ds.length then
      ds.take (ds.length - k) ++ '.' :: ds.drop (ds.length - k)
    else
      '0' :: '.' :: (List.replicate (k - ds.length) '0' ++ ds)

/-- Digit string of a decimal value `m * 10 ^ e`.
Divergence note: JS `ToString` switches to exponential notation for
magnitudes `≥ 1e21` or `< 1e-6`; this model always uses positional notation.
No claim in this development depends on numbers in those ranges. -/
def decChars (m e : ℤ) : List Char :=
  (if m < 0 then ['-'] else []) ++ decCharsNat m.natAbs e

/-- JS `ToString` on a (finite) number value. -/
def numToString (d : Dec) : String := String.mk (decChars d.m d.e)

/-- `ToString` on a number that may be `NaN` or infinite. -/
def jsNumToString : JsNum → String
  | .nan => "NaN"
  | .inf => "Infinity"
  | .negInf => "-Infinity"
  | .fin d => numToString d

mutual
/-- JS `ToString` of a JSON value; arrays join their elements with `","`
(`null` elements become the empty string, as in `Array.prototype.join`),
plain objects print as `"[object Object]"`. -/
def jsToString : Json → String
  | .null => "null"
  | .bool b => cond b "true" "false"
  | .num d => numToString d
  | .str s => s
  | .obj _ => "[object Object]"
  | .arr xs => joinArr xs

/-- `Array.prototype.join(",")` over stringified elements; `null` elements
print as the empty string inside `join`. -/
def joinArr : JsonArr → String
  | .nil => ""
  | .cons .null .nil => ""
  | .cons h .nil => jsToString h
  | .cons .null (.cons h' t) => "," ++ joinArr (.cons h' t)
  | .cons h (.cons h' t) => jsToString h ++ "," ++ joinArr (.cons h' t)
end

/-- JS `ToString` of a possibly-`undefined` value (as in template literals:
`String(undefined) = "undefined"`). -/
def jsToStringU : Option Json → String
  | none => "undefined"
  | some j => jsToString j

/-! ## `Number(...)` coercion (`ToNumber`) -/

/-- Whitespace trimmed by JS string trimming (`StrWhiteSpace`); modelled for
the ASCII whitespace characters plus NBSP and the BOM. -/
def isJsWs (c : Char) : Bool :=
  c = ' ' || c = '\t' || c = '\n' || c = '\r' ||
  c.toNat = 11 || c.toNat = 12 || c.toNat = 0xA0 || c.toNat = 0xFEFF

/-- Drop leading whitespace. -/
def dropWs (l : List Char) : List Char := l.dropWhile isJsWs

/-- Trim whitespace from both ends. -/
def trimBoth (l : List Char) : List Char :=
  ((l.dropWhile isJsWs).reverse.dropWhile isJsWs).reverse

/-- Signed decimal digit run (for exponents): `[+|-] Digit+`. -/
def parseSignedDigits (l : List Char) : Option ℤ :=
  let (neg, body) :=
    match l with
    | '+' :: r => (false, r)
    | '-' :: r => (true, r)
    | r => (false, r)
  if body ≠ [] ∧ body.all isDig then
    some (if neg then -(valDigits body : ℤ) else (valDigits body : ℤ))
  else none

/-- Optional exponent part of a `ToNumber` decimal literal; must consume the
whole remainder. -/
def parseExpPart : List Char → Option ℤ
  | [] => some 0
  | 'e' :: r => parseSignedDigits r
  | 'E' :: r => parseSignedDigits r
  | _ => none

/-- Unsigned `ToNumber` decimal body `Digits [. Digits] [Exp]` (either the
integer or the fraction digits may be empty, not both).  Returns the value as
a mantissa/exponent pair. -/
def parseDecBody (l : List Char) : Option (ℤ × ℤ) :=
  let I := l.takeWhile isDig
  let r1 := l.dropWhile isDig
  match r1 with
  | '.' :: r2 =>
      let F := r2.takeWhile isDig
      let r3 := r2.dropWhile isDig
      if I = [] ∧ F = [] then none
      else (parseExpPart r3).map
        (fun ex => (((valDigits I : ℤ) * 10 ^ F.length + valDigits F), ex - F.length))
  | _ =>
      if I = [] then none
      else (parseExpPart r1).map (fun ex => ((valDigits I : ℤ), ex))

/-- Non-decimal (hex/octal/binary) integer body: all digits valid, nonempty. -/
def parseRadixBody (base : ℕ) (isD : Char → Bool) (l : List Char) : Option ℤ :=
  if l ≠ [] ∧ l.all isD then
    some (l.foldl (fun a c => a * base + hexVal c) 0 : ℕ)
  else none

def isOctDig (c : Char) : Bool := 48 ≤ c.toNat && c.toNat ≤ 55
def isBinDig (c : Char) : Bool := c = '0' || c = '1'

/-- JS `ToNumber` on a string (`StringToNumber`): trim; empty → `0`;
optionally-signed decimal literal or `Infinity`; unsigned `0x`/`0o`/`0b`
literals; anything else → `NaN`. -/
def strToNumber (s : String) : JsNum :=
  let t := trimBoth s.data
  match t with
  | [] => .fin decZero
  | '0' :: 'x' :: r => radixResult (parseRadixBody 16 isHexDig r)
  | '0' :: 'X' :: r => radixResult (parseRadixBody 16 isHexDig r)
  | '0' :: 'o' :: r => radixResult (parseRadixBody 8 isOctDig r)
  | '0' :: 'O' :: r => radixResult (parseRadixBody 8 isOctDig r)
  | '0' :: 'b' :: r => radixResult (parseRadixBody 2 isBinDig r)
  | '0' :: 'B' :: r => radixResult (parseRadixBody 2 isBinDig r)
  | _ =>
      let (neg, body) :=
        match t with
        | '+' :: r => (false, r)
        | '-' :: r => (true, r)
        | r => (false, r)
      if body = "Infinity".data then (if neg then .negInf else .inf)
      else
        match parseDecBody body with
        | some (m, ex) => .fin (mkDec (if neg then -m else m) ex)
        | none => .nan
where
  radixResult : Option ℤ → JsNum
    | some v => .fin (mkDec v 0)
    | none => .nan

/-- JS `Number(x)` on a possibly-`undefined` JSON value.  Arrays and objects
coerce through their string form (`ToPrimitive` falls through to
`toString` for plain objects and arrays). -/
def jsToNumber : Option Json → JsNum
  | none => .nan
  | some .null => .fin decZero
  | some (.bool b) => .fin (mkDec (cond b 1 0) 0)
  | some (.num d) => .fin d
  | some (.str s) => strToNumber s
  | some (.arr xs) => strToNumber (jsToString (.arr xs))
  | some (.obj fs) => strToNumber (jsToString (.obj fs))

/-! ## `JSON.parse` (strict JSON grammar) -/

/-- JSON grammar whitespace (space, tab, line feed, carriage return). -/
def isJsonWs (c : Char) : Bool := c = ' ' || c = '\t' || c = '\n' || c = '\r'

def skipWs (l : List Char) : List Char := l.dropWhile isJsonWs

/-- Decode the continuation of a `\uXXXX` escape that named a high
surrogate: a following low-surrogate escape combines into one code point;
otherwise the lone surrogate (not representable as a Lean `Char`) is
modelled as U+FFFD and nothing further is consumed. -/
def decodeSurrogate (hi : ℕ) (l : List Char) : Option (Char × List Char) :=
  match l with
  | '\\' :: 'u' :: a :: b :: c :: d :: r =>
      if isHexDig a && isHexDig b && isHexDig c && isHexDig d then
        if 0xDC00 ≤ ((hexVal a * 16 + hexVal b) * 16 + hexVal c) * 16 + hexVal d ∧
            ((hexVal a * 16 + hexVal b) * 16 + hexVal c) * 16 + hexVal d ≤ 0xDFFF then
          some (Char.ofNat (0x10000 + (hi - 0xD800) * 0x400 +
            (((hexVal a * 16 + hexVal b) * 16 + hexVal c) * 16 + hexVal d - 0xDC00)), r)
        else some ('�', l)
      else some ('�', l)
  | _ => some ('�', l)

/-- Decode the four hex digits of a `\uXXXX` escape (and a possible
surrogate pair). -/
def decodeHexEsc : List Char → Option (Char × List Char)
  | a :: b :: c :: d :: r =>
      if isHexDig a && isHexDig b && isHexDig c && isHexDig d then
        let code := ((hexVal a * 16 + hexVal b) * 16 + hexVal c) * 16 + hexVal d
        if 0xD800 ≤ code ∧ code ≤ 0xDBFF then decodeSurrogate code r
        else if 0xDC00 ≤ code ∧ code ≤ 0xDFFF then some ('�', r)
        else some (Char.ofNat code, r)
      else none
  | _ => none

/-- Decode one escape sequence (the part after the backslash). -/
def decodeEsc : List Char → Option (Char × List Char)
  | [] => none
  | c :: r =>
      if c == '"' then some ('"', r)
      else if c == '\\' then some ('\\', r)
      else if c == '/' then some ('/', r)
      else if c == 'b' then some ('\x08', r)
      else if c == 'f' then some ('\x0c', r)
      else if c == 'n' then some ('\n', r)
      else if c == 'r' then some ('\r', r)
      else if c == 't' then some ('\t', r)
      else if c == 'u' then decodeHexEsc r
      else none

/-- Body of a JSON string after the opening quote: scan to the closing quote
handling escapes.  Returns the decoded characters and the remainder.  Raw
control characters are a parse error.  Fuel-structural; each step consumes
at least one character, so `length + 1` fuel suffices. -/
def parseStrBody : ℕ → List Char → Option (List Char × List Char)
  | 0, _ => none
  | fuel+1, l =>
      match l with
      | [] => none
      | c :: rest =>
          if c == '"' then some ([], rest)
          else if c == '\\' then
            match decodeEsc rest with
            | none => none
            | some (ch, r2) => (parseStrBody fuel r2).map (fun p => (ch :: p.1, p.2))
          else if c.toNat < 32 then none
          else (parseStrBody fuel rest).map (fun p => (c :: p.1, p.2))

/-- Fraction part `. Digit+` of a JSON number (optional). -/
def parseFrac (l : List Char) : Option (List Char × List Char) :=
  match l with
  | '.' :: r =>
      let F := r.takeWhile isDig
      if F = [] then none else some (F, r.dropWhile isDig)
  | _ => some ([], l)

/-- Tail of an exponent after `e`/`E`: `[+|-] Digit+`. -/
def parseExpTail (l : List Char) : Option (ℤ × List Char) :=
  let p : Bool × List Char :=
    match l with
    | '+' :: r => (false, r)
    | '-' :: r => (true, r)
    | r => (false, r)
  let D := p.2.takeWhile isDig
  if D = [] then none
  else some ((if p.1 then -(valDigits D : ℤ) else (valDigits D : ℤ)), p.2.dropWhile isDig)

/-- Exponent part of a JSON number (optional). -/
def parseExp (l : List Char) : Option (ℤ × List Char) :=
  match l with
  | 'e' :: r => parseExpTail r
  | 'E' :: r => parseExpTail r
  | _ => some (0, l)

/-- A JSON number literal `-? (0 | [1-9][0-9]*) (. [0-9]+)? ([eE][+-]?[0-9]+)?`,
evaluated exactly into a canonical decimal. -/
def parseJsonNumber (l : List Char) : Option (Dec × List Char) :=
  let p : Bool × List Char :=
    match l with
    | '-' :: r => (true, r)
    | r => (false, r)
  let I := p.2.takeWhile isDig
  let r1 := p.2.dropWhile isDig
  if I = [] then none
  else if I.head? = some '0' ∧ I ≠ ['0'] then none
  else
    match parseFrac r1 with
    | none => none
    | some (F, r2) =>
        match parseExp r2 with
        | none => none
        | some (ex, r3) =>
            let mAbs : ℤ := (valDigits I : ℤ) * 10 ^ F.length + (valDigits F : ℤ)
            some (mkDec (if p.1 then -mAbs else mAbs) (ex - F.length), r3)

/-- Parser modes: a value, the inside of `{...}` (possibly empty, then the
member loop), and the inside of `[...]` (possibly empty, then the item
loop).  A single fuel-structural function so the whole parser evaluates in
the kernel. -/
inductive PMode where
  | value
  | obj0
  | objM (acc : JsonObj)
  | arr0
  | arrM (acc : JsonArr)

def parseCore : ℕ → PMode → List Char → Option (Json × List Char)
  | 0, _, _ => none
  | fuel+1, .value, input =>
      match skipWs input with
      | '{' :: r => parseCore fuel .obj0 r
      | '[' :: r => parseCore fuel .arr0 r
      | '"' :: r => (parseStrBody (r.length + 1) r).map (fun p => (.str (String.mk p.1), p.2))
      | 't' :: 'r' :: 'u' :: 'e' :: r => some (.bool true, r)
      | 'f' :: 'a' :: 'l' :: 's' :: 'e' :: r => some (.bool false, r)
      | 'n' :: 'u' :: 'l' :: 'l' :: r => some (.null, r)
      | l => (parseJsonNumber l).map (fun p => (.num p.1, p.2))
  | fuel+1, .obj0, input =>
      match skipWs input with
      | '}' :: r => some (.obj .nil, r)
      | l => parseCore fuel (.objM .nil) l
  | fuel+1, .objM acc, input =>
      match skipWs input with
      | '"' :: r =>
          match parseStrBody (r.length + 1) r with
          | none => none
          | some (k, r2) =>
              match skipWs r2 with
              | ':' :: r3 =>
                  match parseCore fuel .value r3 with
                  | none => none
                  | some (v, r4) =>
                      match skipWs r4 with
                      | ',' :: r5 => parseCore fuel (.objM (.cons (String.mk k) v acc)) r5
                      | '}' :: r5 => some (.obj (JsonObj.reverse (.cons (String.mk k) v acc)), r5)
                      | _ => none
              | _ => none
      | _ => none
  | fuel+1, .arr0, input =>
      match skipWs input with
      | ']' :: r => some (.arr .nil, r)
      | l => parseCore fuel (.arrM .nil) l
  | fuel+1, .arrM acc, input =>
      match parseCore fuel .value input with
      | none => none
      | some (v, r) =>
          match skipWs r with
          | ',' :: r2 => parseCore fuel (.arrM (.cons v acc)) r2
          | ']' :: r2 => some (.arr (JsonArr.reverse (.cons v acc)), r2)
          | _ => none

/-- `JSON.parse` on a character list: parse one value, then only whitespace
may remain.  `4 * length + 8` fuel always suffices (every parser frame is
within three frames of one that has consumed a character). -/
def parseJsonChars (l : List Char) : Option Json :=
  match parseCore (4 * l.length + 8) .value l with
  | none => none
  | some (v, rest) => if skipWs rest = [] then some v else none

/-! ## Caption parsing and serialization (`parseMemeCaption`) -/

/-- `.replace(/```json/g, "")`: remove every occurrence of the seven-character
fence marker, scanning left to right (after a non-match the scan advances by
one character, as the regex engine does). -/
def replaceFenceJson : List Char → List Char
  | a :: b :: c :: d :: e :: f :: g :: rest =>
      if (a == '`' && b == '`' && c == '`') && (d == 'j' && e == 's' && f == 'o' && g == 'n') then
        replaceFenceJson rest
      else a :: replaceFenceJson (b :: c :: d :: e :: f :: g :: rest)
  | l => l

/-- `.replace(/```/g, "")`: remove every occurrence of three backticks,
scanning left to right. -/
def replaceFence : List Char → List Char
  | a :: b :: c :: rest =>
      if a == '`' && b == '`' && c == '`' then replaceFence rest
      else a :: replaceFence (b :: c :: rest)
  | l => l

/-- Whether the list contains three consecutive backticks (the code-fence
marker both `replace` calls react to). -/
def hasTriple : List Char → Bool
  | a :: b :: c :: rest => (a == '`' && b == '`' && c == '`') || hasTriple (b :: c :: rest)
  | _ => false

/-- Backtick-run scanner: processes the list keeping the length `k` of the
current run of consecutive backticks, and fails as soon as a run reaches
three.  `btRunOk 0 l = true` iff `l` has no backtick triple. -/
def btRunOk : ℕ → List Char → Bool
  | _, [] => true
  | k, c :: cs => if c == '`' then (if 2 ≤ k then false else btRunOk (k+1) cs) else btRunOk 0 cs

/-- The list starts with at least `n` backticks. -/
def leadBtGe : ℕ → List Char → Bool
  | 0, _ => true
  | _+1, [] => false
  | n+1, c :: cs => c == '`' && leadBtGe n cs

/-- No backtick at all. -/
def noBt (l : List Char) : Bool := l.all (fun c => !(c == '`'))

/-- The structured caption produced by `parseMemeCaption`
(`interface MemeCaption`).  The `image` field is whatever `Number(...)`
produced — the code performs coercion, not validation. -/
structure MemeCaption where
  image : JsNum
  topText : String
  bottomText : String
deriving DecidableEq

/-- `parseMemeCaption` from `src/index.ts`: strip code-fence markers, trim,
`JSON.parse`, then coerce the three fields.  Every failure path inside the
`try` (parse error, or the `TypeError` from accessing a property of a parsed
`null`) is caught and yields `null` (`none`). -/
def parseMemeCaption (caption : String) : Option MemeCaption :=
  let cleaned := trimBoth (replaceFence (replaceFenceJson caption.data))
  match parseJsonChars cleaned with
  | none => none
  | some .null => none
  | some j =>
      some ⟨jsToNumber (objGet j "image"),
            jsToStringU (objGet j "topText"),
            jsToStringU (objGet j "bottomText")⟩

/-- `JSON.stringify` of a number-typed field (`NaN` and the infinities
serialize as `null`). -/
def jsNumJsonChars : JsNum → List Char
  | .fin d => decChars d.m d.e
  | .nan => "null".data
  | .inf => "null".data
  | .negInf => "null".data

/-- `JSON.stringify` string quoting. -/
def escChar (c : Char) : List Char :=
  if c = '"' then ['\\', '"']
  else if c = '\\' then ['\\', '\\']
  else if c = '\x08' then ['\\', 'b']
  else if c = '\t' then ['\\', 't']
  else if c = '\n' then ['\\', 'n']
  else if c = '\x0c' then ['\\', 'f']
  else if c = '\r' then ['\\', 'r']
  else if c.toNat < 32 then ['\\', 'u', '0', '0', hexChar (c.toNat / 16), hexChar (c.toNat % 16)]
  else [c]

def escapeStr : List Char → List Char
  | [] => []
  | c :: cs => escChar c ++ escapeStr cs

def quoteStr (s : String) : List Char := '"' :: (escapeStr s.data ++ ['"'])

/-- `JSON.stringify` of a `MemeCaption` object (fields in declaration order,
no added whitespace). -/
def stringifyCaption (c : MemeCaption) : String :=
  String.mk ("\x7b\"image\":".data ++ jsNumJsonChars c.image ++
    (",\"topText\":".data ++ quoteStr c.topText ++
      (",\"bottomText\":".data ++ quoteStr c.bottomText ++ ['\x7d'])))

/-! ## Environment validation -/

/-- `process.env`: a map from variable name to value (`none` = unset). -/
def EnvMap : Type := String → Option String

/-- JS truthiness of `process.env[key]`: set and nonempty. -/
def envTruthy (env : EnvMap) (k : String) : Bool :=
  match env k with
  | some v => v ≠ ""
  | none => false

def requiredVars : List String :=
  ["NEWSDATA_API_KEY", "GEMINI_API_KEY", "IMGFLIP_USERNAME", "IMGFLIP_PASSWORD"]

/-- `required.filter((key) => !process.env[key])`. -/
def missingVars (env : EnvMap) : List String :=
  requiredVars.filter (fun k => !envTruthy env k)

def joinComma (l : List String) : String := String.intercalate ", " l

/-- `validateEnvVars`: throws iff some required variable is missing, listing
exactly the missing keys. -/
def validateEnvVars (env : EnvMap) : Except String Unit :=
  if missingVars env = [] then .ok ()
  else .error ("Missing required environment variables: " ++ joinComma (missingVars env))

/-! ## Upstream calls (oracle + response processing from the source) -/

/-- One upstream HTTP exchange, as observed by the code: the `fetch` response
flags and the parsed JSON body (`res.json()`). -/
structure HttpResp where
  ok : Bool
  status : ℕ
  statusText : String
  body : Json

/-- The upstream responses a single request would observe (one per external
service; each flow performs at most one call to each). -/
structure World where
  news : HttpResp
  imgflip : HttpResp
  gemini : HttpResp
  render : HttpResp

def natStr (n : ℕ) : String := String.mk (natChars n)

/-- `fetchIndianNews`: the topic only shapes the outbound query, which the
oracle `r` abstracts; the response processing is modelled exactly.  Returns
`data.results` when it is an array, `[]` otherwise; accessing `.results` on a
`null` body throws. -/
def fetchIndianNews (_topic : String) (r : HttpResp) : Except String JsonArr :=
  if !r.ok then
    .error ("NewsData API error: " ++ natStr r.status ++ " " ++ r.statusText)
  else
    match jsField r.body "results" with
    | .error m => .error m
    | .ok resultsField =>
        match resultsField with
        | some (.arr l) => .ok l
        | _ => .ok .nil

/-- One element of the template catalog after projection:
`({ id, name }) => ({ id: Number(id), name })`.  The `name` field is passed
through untouched (it is whatever JSON value the payload held, possibly
absent). -/
structure ImgflipTemplate where
  id : JsNum
  name : Option Json

/-- `memes.map(({id, name}) => ({id: Number(id), name}))`: destructuring a
`null` element throws a `TypeError` (message modelled). -/
def projectTemplates : JsonArr → Except String (List ImgflipTemplate)
  | .nil => .ok []
  | .cons e rest =>
      match e with
      | .null => .error "TypeError: Cannot destructure property 'id' of 'e' as it is null."
      | j =>
          match projectTemplates rest with
          | .error m => .error m
          | .ok ts => .ok (⟨jsToNumber (objGet j "id"), objGet j "name"⟩ :: ts)

/-- `fetchImgflipTemplates`.  `json.data.memes.slice(0,100).map(...)`:
accessing `.memes` on an absent/null `data` throws, and calling
`.slice(...).map(...)` on a non-array `memes` throws (messages modelled). -/
def fetchImgflipTemplates (r : HttpResp) : Except String (List ImgflipTemplate) :=
  if !r.ok then
    .error ("Imgflip templates API error: " ++ natStr r.status ++ " " ++ r.statusText)
  else
    match jsField r.body "success" with
    | .error m => .error m
    | .ok successField =>
        if !jsTruthyOpt successField then .error "Imgflip API returned success: false"
        else
          match jsField r.body "data" with
          | .error m => .error m
          | .ok none => .error "TypeError: Cannot read properties of undefined (reading 'memes')"
          | .ok (some .null) => .error "TypeError: Cannot read properties of null (reading 'memes')"
          | .ok (some dj) =>
              match objGet dj "memes" with
              | some (.arr memes) => projectTemplates (JsonArr.take 100 memes)
              | _ => .error "TypeError: json.data.memes.slice(...).map is not a function"

/-- `generateCaption`: the prompt built from the title, the description and
the allowed template ids only shapes the outbound request (abstracted by the
oracle `r`).  Extracts `data?.candidates?.[0]?.content?.parts?.[0]?.text || ""`;
an empty output returns `null`; a non-string truthy output makes
`caption.replace` throw inside `parseMemeCaption`'s `try`, which is caught
and also yields `null`. -/
def generateCaption (_title _description : Option Json)
    (_availableTemplates : List JsNum) (r : HttpResp) :
    Except String (Option MemeCaption) :=
  if !r.ok then
    .error ("Gemini API error: " ++ natStr r.status ++ " " ++ r.statusText)
  else
    let t := optField (optIndex (optField (optField (optIndex
      (optField (some r.body) "candidates") 0) "content") "parts") 0) "text"
    if jsTruthyOpt t then
      match t with
      | some (.str s) => .ok (parseMemeCaption s)
      | _ => .ok none
    else .ok none

/-- `generateMeme` (the renderer): note the source never checks `res.ok`
here; it reads `data.success` (throwing on a `null` body), throws the
vendor's `error_message` (template-literal stringified) on an in-band
failure, and otherwise returns `data.data?.url || null`. -/
def generateMeme (_templateId : JsNum) (_topText _bottomText : String)
    (r : HttpResp) : Except String (Option Json) :=
  match jsField r.body "success" with
  | .error m => .error m
  | .ok successField =>
      if !jsTruthyOpt successField then
        .error ("Imgflip API error: " ++ jsToStringU (objGet r.body "error_message"))
      else
        let u := optField (objGet r.body "data") "url"
        if jsTruthyOpt u then .ok u else .ok none

/-! ## Routes

Request bodies are modelled at the declared field types of each route's
request shape (`none` = field absent); a field's JS truthiness is then
absence/emptiness/zero-ness exactly as the code's `!x` tests see it. -/

structure NewsQuery where
  topic : Option String

structure CaptionReq where
  title : Option String
  description : Option String
  availableTemplates : Option (List JsNum)

structure CreateMemeReq where
  templateId : Option JsNum
  topText : Option String
  bottomText : Option String

structure NewsMemeReq where
  topic : Option String
  articleIndex : Option ℕ

structure PuchReq where
  topic : Option String
  paramsTopic : Option String
  articleIndex : Option ℕ

/-- `x || d` for an optional string field (absent and `""` are falsy). -/
def strOr (o : Option String) (d : String) : String :=
  match o with
  | some s => if s = "" then d else s
  | none => d

/-- `x || d` for an optional index field (absent and `0` are falsy). -/
def natOr (o : Option ℕ) (d : ℕ) : ℕ :=
  match o with
  | some n => if n = 0 then d else n
  | none => d

def strTruthy (o : Option String) : Bool :=
  match o with
  | some s => s ≠ ""
  | none => false

def numTruthy (o : Option JsNum) : Bool :=
  match o with
  | some n => n.truthy
  | none => false

/-- Every HTTP response of the service: `{success:false, error}` (all error
kinds are flattened to this shape with status 500) or the route's success
payload. -/
inductive RouteResp where
  | fail (error : String)
  | newsOk (count : ℕ) (articles : JsonArr)
  | templatesOk (count : ℕ) (templates : List ImgflipTemplate)
  | captionOk (caption : Option MemeCaption)
  | memeOk (memeUrl : Option Json)
  | pipelineOk (title description : Option Json) (caption : MemeCaption) (memeUrl : Option Json)
  | puchOk (title description link : Option Json) (caption : MemeCaption) (memeUrl : Json)

/-- `GET /fetch_indian_news`. -/
def fetchIndianNewsRoute (env : EnvMap) (w : World) (req : NewsQuery) : RouteResp :=
  match validateEnvVars env with
  | .error m => .fail m
  | .ok _ =>
      match fetchIndianNews (strOr req.topic "") w.news with
      | .error m => .fail m
      | .ok arts => .newsOk arts.length arts

/-- `GET /get_meme_templates`: the only route that does not call
`validateEnvVars` (the parameter is taken but never used, mirroring the
source). -/
def getMemeTemplatesRoute (_env : EnvMap) (w : World) : RouteResp :=
  match fetchImgflipTemplates w.imgflip with
  | .error m => .fail m
  | .ok ts => .templatesOk ts.length ts

/-- `POST /generate_meme_caption`. -/
def generateMemeCaptionRoute (env : EnvMap) (w : World) (req : CaptionReq) : RouteResp :=
  match validateEnvVars env with
  | .error m => .fail m
  | .ok _ =>
      if !strTruthy req.title || !strTruthy req.description || !req.availableTemplates.isSome then
        .fail "Missing required parameters"
      else
        match generateCaption (req.title.map .str) (req.description.map .str)
            (req.availableTemplates.getD []) w.gemini with
        | .error m => .fail m
        | .ok c => .captionOk c

/-- `POST /create_meme`.  The boolean records whether the renderer
(`generateMeme`) was invoked. -/
def createMemeRoute (env : EnvMap) (w : World) (req : CreateMemeReq) : RouteResp × Bool :=
  match validateEnvVars env with
  | .error m => (.fail m, false)
  | .ok _ =>
      if !numTruthy req.templateId || !strTruthy req.topText || !strTruthy req.bottomText then
        (.fail "Missing required parameters", false)
      else
        match generateMeme (req.templateId.getD .nan) (req.topText.getD "")
            (req.bottomText.getD "") w.render with
        | .error m => (.fail m, true)
        | .ok u => (.memeOk u, true)

/-- `POST /generate_news_meme` (full pipeline, variant 1).  The boolean
records whether the renderer was invoked.  Note: no check of the final
`memeUrl`. -/
def generateNewsMemeRoute (env : EnvMap) (w : World) (req : NewsMemeReq) : RouteResp × Bool :=
  match validateEnvVars env with
  | .error m => (.fail m, false)
  | .ok _ =>
      match fetchIndianNews (strOr req.topic "") w.news with
      | .error m => (.fail m, false)
      | .ok news =>
          if news.length = 0 then (.fail "No news articles found", false)
          else
            let article := news.get? (natOr req.articleIndex 0)
            let titleV := optField article "title"
            let descV := optField article "description"
            if !jsTruthyOpt titleV || !jsTruthyOpt descV then (.fail "Invalid article", false)
            else
              match fetchImgflipTemplates w.imgflip with
              | .error m => (.fail m, false)
              | .ok templates =>
                  match generateCaption titleV descV (templates.map (fun t => t.id)) w.gemini with
                  | .error m => (.fail m, false)
                  | .ok none => (.fail "Failed to generate meme caption", false)
                  | .ok (some caption) =>
                      match generateMeme caption.image caption.topText caption.bottomText w.render with
                      | .error m => (.fail m, true)
                      | .ok u => (.pipelineOk titleV descV caption u, true)

/-- `POST /puch_generate_meme` (full pipeline, variant 2): requires a truthy
topic, and fails if the rendered `memeUrl` is falsy.  The boolean records
whether the renderer was invoked. -/
def puchGenerateMemeRoute (env : EnvMap) (w : World) (req : PuchReq) : RouteResp × Bool :=
  match validateEnvVars env with
  | .error m => (.fail m, false)
  | .ok _ =>
      let topic := strOr req.topic (strOr req.paramsTopic "")
      if topic = "" then (.fail "Topic is required", false)
      else
        match fetchIndianNews topic w.news with
        | .error m => (.fail m, false)
        | .ok news =>
            if news.length = 0 then
              (.fail ("No news articles found for topic: " ++ topic), false)
            else
              let article := news.get? (natOr req.articleIndex 0)
              let titleV := optField article "title"
              let descV := optField article "description"
              if !jsTruthyOpt titleV || !jsTruthyOpt descV then
                (.fail "Selected article is missing title/description", false)
              else
                match fetchImgflipTemplates w.imgflip with
                | .error m => (.fail m, false)
                | .ok templates =>
                    match generateCaption titleV descV (templates.map (fun t => t.id)) w.gemini with
                    | .error m => (.fail m, false)
                    | .ok none => (.fail "Failed to generate meme caption", false)
                    | .ok (some caption) =>
                        match generateMeme caption.image caption.topText caption.bottomText w.render with
                        | .error m => (.fail m, true)
                        | .ok none => (.fail "Failed to create meme image", true)
                        | .ok (some u) =>
                            (.puchOk titleV descV
                              (if jsTruthyOpt (optField article "link")
                               then optField article "link" else none)
                              caption u, true)

/-! ## Concrete fixtures (used by witnesses) -/

/-- An environment with every required credential set. -/
def envAll : EnvMap := fun _ => some "key"

/-- An environment with no credential set. -/
def envNone : EnvMap := fun _ => none

def articleW : Json :=
  .obj (.cons "title" (.str "India wins")
    (.cons "description" (.str "Historic victory") .nil))

def newsRespW : HttpResp :=
  ⟨true, 200, "OK", .obj (.cons "results" (.arr (.cons articleW .nil)) .nil)⟩

def memeTemplateW : Json :=
  .obj (.cons "id" (.str "181913649") (.cons "name" (.str "Drake") .nil))

def imgflipRespW : HttpResp :=
  ⟨true, 200, "OK",
    .obj (.cons "success" (.bool true)
      (.cons "data" (.obj (.cons "memes" (.arr (.cons memeTemplateW .nil)) .nil)) .nil))⟩

/-- A generative-text response whose extracted output is empty (caption
generation returns `null`). -/
def geminiEmptyRespW : HttpResp := ⟨true, 200, "OK", .null⟩

/-- A render response with `success: true` but no `data.url` (render yields
no URL). -/
def renderNullRespW : HttpResp :=
  ⟨true, 200, "OK", .obj (.cons "success" (.bool true) .nil)⟩

def renderOkRespW : HttpResp :=
  ⟨true, 200, "OK",
    .obj (.cons "success" (.bool true)
      (.cons "data" (.obj (.cons "url" (.str "https://i.imgflip.com/abc.jpg") .nil)) .nil))⟩

/-! ## Helper lemmas about the routes -/

theorem validateEnvVars_ok {env : EnvMap} (h : missingVars env = []) :
    validateEnvVars env = .ok () := by
  simp [validateEnvVars, h]

theorem validateEnvVars_err {env : EnvMap} (h : missingVars env ≠ []) :
    validateEnvVars env =
      .error ("Missing required environment variables: " ++ joinComma (missingVars env)) := by
  simp [validateEnvVars, h]

theorem fetchIndianNewsRoute_missing (env : EnvMap) (w : World) (req : NewsQuery)
    (h : missingVars env ≠ []) :
    fetchIndianNewsRoute env w req =
      .fail ("Missing required environment variables: " ++ joinComma (missingVars env)) := by
  simp [fetchIndianNewsRoute, validateEnvVars_err h]

theorem generateMemeCaptionRoute_missing (env : EnvMap) (w : World) (req : CaptionReq)
    (h : missingVars env ≠ []) :
    generateMemeCaptionRoute env w req =
      .fail ("Missing required environment variables: " ++ joinComma (missingVars env)) := by
  simp [generateMemeCaptionRoute, validateEnvVars_err h]

theorem createMemeRoute_missing (env : EnvMap) (w : World) (req : CreateMemeReq)
    (h : missingVars env ≠ []) :
    createMemeRoute env w req =
      (.fail ("Missing required environment variables: " ++ joinComma (missingVars env)), false) := by
  simp [createMemeRoute, validateEnvVars_err h]

theorem generateNewsMemeRoute_missing (env : EnvMap) (w : World) (req : NewsMemeReq)
    (h : missingVars env ≠ []) :
    generateNewsMemeRoute env w req =
      (.fail ("Missing required environment variables: " ++ joinComma (missingVars env)), false) := by
  simp [generateNewsMemeRoute, validateEnvVars_err h]

theorem puchGenerateMemeRoute_missing (env : EnvMap) (w : World) (req : PuchReq)
    (h : missingVars env ≠ []) :
    puchGenerateMemeRoute env w req =
      (.fail ("Missing required environment variables: " ++ joinComma (missingVars env)), false) := by
  simp [puchGenerateMemeRoute, validateEnvVars_err h]

/-! ## C1 -/

/-- **C1.** In both full-pipeline flows, whenever the earlier steps succeed
(credentials present, news fetched and selected article valid, templates
fetched) and caption generation returns `null`, the flow aborts with exactly
`"Failed to generate meme caption"` and the renderer is never invoked (the
boolean component, which the model sets exactly at the `generateMeme` call
sites, is `false`). -/
theorem C1_null_caption_aborts_without_render :
    (∀ (env : EnvMap) (w : World) (req : NewsMemeReq) (news : JsonArr)
        (ts : List ImgflipTemplate),
      missingVars env = [] →
      fetchIndianNews (strOr req.topic "") w.news = .ok news →
      news.length ≠ 0 →
      jsTruthyOpt (optField (news.get? (natOr req.articleIndex 0)) "title") = true →
      jsTruthyOpt (optField (news.get? (natOr req.articleIndex 0)) "description") = true →
      fetchImgflipTemplates w.imgflip = .ok ts →
      generateCaption (optField (news.get? (natOr req.articleIndex 0)) "title")
        (optField (news.get? (natOr req.articleIndex 0)) "description")
        (ts.map (fun t => t.id)) w.gemini = .ok none →
      generateNewsMemeRoute env w req = (.fail "Failed to generate meme caption", false)) ∧
    (∀ (env : EnvMap) (w : World) (req : PuchReq) (news : JsonArr)
        (ts : List ImgflipTemplate),
      missingVars env = [] →
      strOr req.topic (strOr req.paramsTopic "") ≠ "" →
      fetchIndianNews (strOr req.topic (strOr req.paramsTopic "")) w.news = .ok news →
      news.length ≠ 0 →
      jsTruthyOpt (optField (news.get? (natOr req.articleIndex 0)) "title") = true →
      jsTruthyOpt (optField (news.get? (natOr req.articleIndex 0)) "description") = true →
      fetchImgflipTemplates w.imgflip = .ok ts →
      generateCaption (optField (news.get? (natOr req.articleIndex 0)) "title")
        (optField (news.get? (natOr req.articleIndex 0)) "description")
        (ts.map (fun t => t.id)) w.gemini = .ok none →
      puchGenerateMemeRoute env w req = (.fail "Failed to generate meme caption", false)) := by
  constructor
  · intro env w req news ts hmiss hnews hlen htitle hdesc hts hcap
    simp only [generateNewsMemeRoute, validateEnvVars_ok hmiss, hnews, if_neg hlen,
      htitle, hdesc, hts, hcap, Bool.not_true, Bool.or_self, Bool.false_or,
      Bool.or_false, if_neg]
    simp
  · intro env w req news ts hmiss htopic hnews hlen htitle hdesc hts hcap
    simp only [puchGenerateMemeRoute, validateEnvVars_ok hmiss, if_neg htopic, hnews,
      if_neg hlen, htitle, hdesc, hts, hcap, Bool.not_true, Bool.or_self,
      Bool.false_or, Bool.or_false]
    simp

/-- **C1 witness**: both parts applied at a concrete request/world in which
every prior step succeeds and the extracted model output is empty. -/
theorem C1_witness :
    generateNewsMemeRoute envAll ⟨newsRespW, imgflipRespW, geminiEmptyRespW, renderOkRespW⟩
        ⟨none, none⟩ = (.fail "Failed to generate meme caption", false) ∧
    puchGenerateMemeRoute envAll ⟨newsRespW, imgflipRespW, geminiEmptyRespW, renderOkRespW⟩
        ⟨some "cricket", none, none⟩ = (.fail "Failed to generate meme caption", false) :=
  ⟨C1_null_caption_aborts_without_render.1 envAll _ _ (.cons articleW .nil) _
      rfl rfl (by decide) rfl rfl rfl rfl,
    C1_null_caption_aborts_without_render.2 envAll _ _ (.cons articleW .nil) _
      rfl (by decide) rfl (by decide) rfl rfl rfl rfl⟩

/-! ## C3 -/

/-- **C3.** When the pipeline reaches the render step and the renderer
returns no URL (`null`), `puch_generate_meme` (variant 2) fails with exactly
`"Failed to create meme image"`, whereas `generate_news_meme` (variant 1)
returns a success response whose `memeUrl` is `null` — only variant 2 checks
the final URL.  (The boolean `true` records that the renderer was invoked.) -/
theorem C3_null_render_url_only_variant2_fails :
    (∀ (env : EnvMap) (w : World) (req : PuchReq) (news : JsonArr)
        (ts : List ImgflipTemplate) (caption : MemeCaption),
      missingVars env = [] →
      strOr req.topic (strOr req.paramsTopic "") ≠ "" →
      fetchIndianNews (strOr req.topic (strOr req.paramsTopic "")) w.news = .ok news →
      news.length ≠ 0 →
      jsTruthyOpt (optField (news.get? (natOr req.articleIndex 0)) "title") = true →
      jsTruthyOpt (optField (news.get? (natOr req.articleIndex 0)) "description") = true →
      fetchImgflipTemplates w.imgflip = .ok ts →
      generateCaption (optField (news.get? (natOr req.articleIndex 0)) "title")
        (optField (news.get? (natOr req.articleIndex 0)) "description")
        (ts.map (fun t => t.id)) w.gemini = .ok (some caption) →
      generateMeme caption.image caption.topText caption.bottomText w.render = .ok none →
      puchGenerateMemeRoute env w req = (.fail "Failed to create meme image", true)) ∧
    (∀ (env : EnvMap) (w : World) (req : NewsMemeReq) (news : JsonArr)
        (ts : List ImgflipTemplate) (caption : MemeCaption),
      missingVars env = [] →
      fetchIndianNews (strOr req.topic "") w.news = .ok news →
      news.length ≠ 0 →
      jsTruthyOpt (optField (news.get? (natOr req.articleIndex 0)) "title") = true →
      jsTruthyOpt (optField (news.get? (natOr req.articleIndex 0)) "description") = true →
      fetchImgflipTemplates w.imgflip = .ok ts →
      generateCaption (optField (news.get? (natOr req.articleIndex 0)) "title")
        (optField (news.get? (natOr req.articleIndex 0)) "description")
        (ts.map (fun t => t.id)) w.gemini = .ok (some caption) →
      generateMeme caption.image caption.topText caption.bottomText w.render = .ok none →
      generateNewsMemeRoute env w req =
        (.pipelineOk (optField (news.get? (natOr req.articleIndex 0)) "title")
          (optField (news.get? (natOr req.articleIndex 0)) "description") caption none, true)) := by
  constructor
  · intro env w req news ts caption hmiss htopic hnews hlen htitle hdesc hts hcap hrender
    simp only [puchGenerateMemeRoute, validateEnvVars_ok hmiss, if_neg htopic, hnews,
      if_neg hlen, htitle, hdesc, hts, hcap, hrender, Bool.not_true, Bool.or_self,
      Bool.false_or, Bool.or_false]
    simp
  · intro env w req news ts caption hmiss hnews hlen htitle hdesc hts hcap hrender
    simp only [generateNewsMemeRoute, validateEnvVars_ok hmiss, hnews, if_neg hlen,
      htitle, hdesc, hts, hcap, hrender, Bool.not_true, Bool.or_self, Bool.false_or,
      Bool.or_false]
    simp

/-- **C3 witness**: both parts applied at a concrete request/world in which
the caption step succeeds and the renderer answers `success` with no URL. -/
theorem C3_witness :
    puchGenerateMemeRoute envAll
        ⟨newsRespW, imgflipRespW,
          ⟨true, 200, "OK",
            .obj (.cons "candidates" (.arr (.cons (.obj (.cons "content"
              (.obj (.cons "parts" (.arr (.cons (.obj (.cons "text"
                (.str "\x7b\"image\":181913649,\"topText\":\"When India wins\",\"bottomText\":\"Everyone celebrates\"\x7d")
                .nil)) .nil)) .nil)) .nil)) .nil)) .nil)⟩,
          renderNullRespW⟩
        ⟨some "cricket", none, none⟩ = (.fail "Failed to create meme image", true) ∧
    generateNewsMemeRoute envAll
        ⟨newsRespW, imgflipRespW,
          ⟨true, 200, "OK",
            .obj (.cons "candidates" (.arr (.cons (.obj (.cons "content"
              (.obj (.cons "parts" (.arr (.cons (.obj (.cons "text"
                (.str "\x7b\"image\":181913649,\"topText\":\"When India wins\",\"bottomText\":\"Everyone celebrates\"\x7d")
                .nil)) .nil)) .nil)) .nil)) .nil)) .nil)⟩,
          renderNullRespW⟩
        ⟨none, none⟩ =
      (.pipelineOk (some (.str "India wins")) (some (.str "Historic victory"))
        ⟨.fin ⟨181913649, 0⟩, "When India wins", "Everyone celebrates"⟩ none, true) :=
  ⟨C3_null_render_url_only_variant2_fails.1 envAll _ _ (.cons articleW .nil) _
      ⟨.fin ⟨181913649, 0⟩, "When India wins", "Everyone celebrates"⟩
      rfl (by decide) rfl (by decide) rfl rfl rfl rfl rfl,
    C3_null_render_url_only_variant2_fails.2 envAll _ _ (.cons articleW .nil) _
      ⟨.fin ⟨181913649, 0⟩, "When India wins", "Everyone celebrates"⟩
      rfl rfl (by decide) rfl rfl rfl rfl rfl⟩

def worldW : World := ⟨newsRespW, imgflipRespW, geminiEmptyRespW, renderOkRespW⟩

/-! ## C8 -/

/-- **C8.** `missingVars` contains exactly the required keys whose value is
missing/empty; every route that calls `validateEnvVars` (all but
`/get_meme_templates`) fails with the `ConfigError` message listing exactly
those keys when any is missing, and proceeds past the check to its body when
none is missing. -/
theorem C8_missing_credentials_listed_exactly :
    (∀ (env : EnvMap) (k : String),
      k ∈ missingVars env ↔ k ∈ requiredVars ∧ envTruthy env k = false) ∧
    (∀ (env : EnvMap), missingVars env ≠ [] →
      (∀ (w : World) (req : NewsQuery),
        fetchIndianNewsRoute env w req =
          .fail ("Missing required environment variables: " ++ joinComma (missingVars env))) ∧
      (∀ (w : World) (req : CaptionReq),
        generateMemeCaptionRoute env w req =
          .fail ("Missing required environment variables: " ++ joinComma (missingVars env))) ∧
      (∀ (w : World) (req : CreateMemeReq),
        createMemeRoute env w req =
          (.fail ("Missing required environment variables: " ++ joinComma (missingVars env)), false)) ∧
      (∀ (w : World) (req : NewsMemeReq),
        generateNewsMemeRoute env w req =
          (.fail ("Missing required environment variables: " ++ joinComma (missingVars env)), false)) ∧
      (∀ (w : World) (req : PuchReq),
        puchGenerateMemeRoute env w req =
          (.fail ("Missing required environment variables: " ++ joinComma (missingVars env)), false))) ∧
    (∀ (env : EnvMap), missingVars env = [] →
      (∀ (w : World) (req : NewsQuery),
        fetchIndianNewsRoute env w req =
          match fetchIndianNews (strOr req.topic "") w.news with
          | .error m => .fail m
          | .ok arts => .newsOk arts.length arts) ∧
      (∀ (w : World) (req : CaptionReq),
        generateMemeCaptionRoute env w req =
          if !strTruthy req.title || !strTruthy req.description || !req.availableTemplates.isSome then
            .fail "Missing required parameters"
          else
            match generateCaption (req.title.map .str) (req.description.map .str)
                (req.availableTemplates.getD []) w.gemini with
            | .error m => .fail m
            | .ok c => .captionOk c) ∧
      (∀ (w : World) (req : CreateMemeReq),
        createMemeRoute env w req =
          if !numTruthy req.templateId || !strTruthy req.topText || !strTruthy req.bottomText then
            (.fail "Missing required parameters", false)
          else
            match generateMeme (req.templateId.getD .nan) (req.topText.getD "")
                (req.bottomText.getD "") w.render with
            | .error m => (.fail m, true)
            | .ok u => (.memeOk u, true)) ∧
      (∀ (w : World) (req : NewsMemeReq),
        generateNewsMemeRoute env w req =
          match fetchIndianNews (strOr req.topic "") w.news with
          | .error m => (.fail m, false)
          | .ok news =>
              if news.length = 0 then (.fail "No news articles found", false)
              else
                let article := news.get? (natOr req.articleIndex 0)
                let titleV := optField article "title"
                let descV := optField article "description"
                if !jsTruthyOpt titleV || !jsTruthyOpt descV then (.fail "Invalid article", false)
                else
                  match fetchImgflipTemplates w.imgflip with
                  | .error m => (.fail m, false)
                  | .ok templates =>
                      match generateCaption titleV descV (templates.map (fun t => t.id)) w.gemini with
                      | .error m => (.fail m, false)
                      | .ok none => (.fail "Failed to generate meme caption", false)
                      | .ok (some caption) =>
                          match generateMeme caption.image caption.topText
                              caption.bottomText w.render with
                          | .error m => (.fail m, true)
                          | .ok u => (.pipelineOk titleV descV caption u, true)) ∧
      (∀ (w : World) (req : PuchReq),
        puchGenerateMemeRoute env w req =
          let topic := strOr req.topic (strOr req.paramsTopic "")
          if topic = "" then (.fail "Topic is required", false)
          else
            match fetchIndianNews topic w.news with
            | .error m => (.fail m, false)
            | .ok news =>
                if news.length = 0 then
                  (.fail ("No news articles found for topic: " ++ topic), false)
                else
                  let article := news.get? (natOr req.articleIndex 0)
                  let titleV := optField article "title"
                  let descV := optField article "description"
                  if !jsTruthyOpt titleV || !jsTruthyOpt descV then
                    (.fail "Selected article is missing title/description", false)
                  else
                    match fetchImgflipTemplates w.imgflip with
                    | .error m => (.fail m, false)
                    | .ok templates =>
                        match generateCaption titleV descV
                            (templates.map (fun t => t.id)) w.gemini with
                        | .error m => (.fail m, false)
                        | .ok none => (.fail "Failed to generate meme caption", false)
                        | .ok (some caption) =>
                            match generateMeme caption.image caption.topText
                                caption.bottomText w.render with
                            | .error m => (.fail m, true)
                            | .ok none => (.fail "Failed to create meme image", true)
                            | .ok (some u) =>
                                (.puchOk titleV descV
                                  (if jsTruthyOpt (optField article "link")
                                   then optField article "link" else none)
                                  caption u, true))) := by
  refine ⟨?_, ?_, ?_⟩
  · intro env k
    simp [missingVars, List.mem_filter]
  · intro env h
    exact ⟨fun w req => fetchIndianNewsRoute_missing env w req h,
      fun w req => generateMemeCaptionRoute_missing env w req h,
      fun w req => createMemeRoute_missing env w req h,
      fun w req => generateNewsMemeRoute_missing env w req h,
      fun w req => puchGenerateMemeRoute_missing env w req h⟩
  · intro env h
    refine ⟨?_, ?_, ?_, ?_, ?_⟩
    · intro w req
      simp [fetchIndianNewsRoute, validateEnvVars_ok h]
    · intro w req
      simp [generateMemeCaptionRoute, validateEnvVars_ok h]
    · intro w req
      simp [createMemeRoute, validateEnvVars_ok h]
    · intro w req
      simp [generateNewsMemeRoute, validateEnvVars_ok h]
    · intro w req
      simp [puchGenerateMemeRoute, validateEnvVars_ok h]

/-- **C8 witness**: with no credential set, a route lists all four keys; with
exactly `GEMINI_API_KEY` unset, only that key is listed; with all
credentials present the news route proceeds to its body, and so does
`/create_meme`, reaching the renderer and returning the rendered URL. -/
theorem C8_witness :
    fetchIndianNewsRoute envNone worldW ⟨none⟩ =
      .fail "Missing required environment variables: NEWSDATA_API_KEY, GEMINI_API_KEY, IMGFLIP_USERNAME, IMGFLIP_PASSWORD" ∧
    createMemeRoute (fun k => if k = "GEMINI_API_KEY" then none else some "x")
        worldW ⟨some (.fin ⟨1, 0⟩), some "t", some "b"⟩ =
      (.fail "Missing required environment variables: GEMINI_API_KEY", false) ∧
    (fetchIndianNewsRoute envAll worldW ⟨none⟩ =
      match fetchIndianNews (strOr none "") worldW.news with
      | .error m => .fail m
      | .ok arts => .newsOk arts.length arts) ∧
    createMemeRoute envAll worldW ⟨some (.fin ⟨1, 0⟩), some "t", some "b"⟩ =
      (.memeOk (some (.str "https://i.imgflip.com/abc.jpg")), true) :=
  ⟨((C8_missing_credentials_listed_exactly.2.1 envNone (by decide)).1 worldW ⟨none⟩),
    ((C8_missing_credentials_listed_exactly.2.1
        (fun k => if k = "GEMINI_API_KEY" then none else some "x") (by decide)).2.2.1
      worldW ⟨some (.fin ⟨1, 0⟩), some "t", some "b"⟩),
    ((C8_missing_credentials_listed_exactly.2.2 envAll rfl).1 worldW ⟨none⟩),
    Eq.trans ((C8_missing_credentials_listed_exactly.2.2 envAll rfl).2.2.1
      worldW ⟨some (.fin ⟨1, 0⟩), some "t", some "b"⟩) rfl⟩

/-! ## C9 -/

/-- **C9.** On `/create_meme`, any present-but-falsy value of `templateId`,
`topText` or `bottomText` (e.g. template id `0` or an empty text string) is
rejected with `"Missing required parameters"` and the renderer is not
invoked: the required-field validation tests JS falsiness, not presence. -/
theorem C9_falsy_create_meme_params_rejected :
    ∀ (env : EnvMap) (w : World) (tid : JsNum) (top bot : String),
      missingVars env = [] →
      (tid.truthy = false ∨ top = "" ∨ bot = "") →
      createMemeRoute env w ⟨some tid, some top, some bot⟩ =
        (.fail "Missing required parameters", false) := by
  intro env w tid top bot hmiss h
  rcases h with h | h | h <;>
    simp [createMemeRoute, validateEnvVars_ok hmiss, numTruthy, strTruthy, h]

/-- **C9 witness**: template id `0` (a well-typed number) with nonempty
texts, and an empty `topText`, are both rejected without render. -/
theorem C9_witness :
    createMemeRoute envAll worldW ⟨some (.fin ⟨0, 0⟩), some "Top", some "Bottom"⟩ =
      (.fail "Missing required parameters", false) ∧
    createMemeRoute envAll worldW ⟨some (.fin ⟨1, 0⟩), some "", some "Bottom"⟩ =
      (.fail "Missing required parameters", false) :=
  ⟨C9_falsy_create_meme_params_rejected envAll worldW (.fin ⟨0, 0⟩) "Top" "Bottom"
      rfl (Or.inl rfl),
    C9_falsy_create_meme_params_rejected envAll worldW (.fin ⟨1, 0⟩) "" "Bottom"
      rfl (Or.inr (Or.inl rfl))⟩

/-! ## C10 -/

/-- **C10.** `/get_meme_templates` performs no credential validation: its
result is independent of the environment and always proceeds to the template
fetch, even when every required credential is absent — unlike the other five
routes, which all fail with the `ConfigError` message before doing any work
when the environment is entirely unset. -/
theorem C10_templates_route_skips_credential_check :
    (∀ (env env' : EnvMap) (w : World),
      getMemeTemplatesRoute env w = getMemeTemplatesRoute env' w) ∧
    (∀ (env : EnvMap) (w : World),
      getMemeTemplatesRoute env w =
        match fetchImgflipTemplates w.imgflip with
        | .error m => .fail m
        | .ok ts => .templatesOk ts.length ts) ∧
    (∀ (env : EnvMap), (∀ k, env k = none) →
      (∀ (w : World) (req : NewsQuery),
        fetchIndianNewsRoute env w req =
          .fail ("Missing required environment variables: " ++ joinComma requiredVars)) ∧
      (∀ (w : World) (req : CaptionReq),
        generateMemeCaptionRoute env w req =
          .fail ("Missing required environment variables: " ++ joinComma requiredVars)) ∧
      (∀ (w : World) (req : CreateMemeReq),
        createMemeRoute env w req =
          (.fail ("Missing required environment variables: " ++ joinComma requiredVars), false)) ∧
      (∀ (w : World) (req : NewsMemeReq),
        generateNewsMemeRoute env w req =
          (.fail ("Missing required environment variables: " ++ joinComma requiredVars), false)) ∧
      (∀ (w : World) (req : PuchReq),
        puchGenerateMemeRoute env w req =
          (.fail ("Missing required environment variables: " ++ joinComma requiredVars), false))) := by
  refine ⟨fun env env' w => rfl, fun env w => rfl, ?_⟩
  intro env h
  have hall : missingVars env = requiredVars := by
    refine List.filter_eq_self.mpr ?_
    intro k _
    simp [envTruthy, h k]
  have hne : missingVars env ≠ [] := by
    rw [hall]; decide
  refine ⟨fun w req => ?_, fun w req => ?_, fun w req => ?_, fun w req => ?_, fun w req => ?_⟩
  · rw [fetchIndianNewsRoute_missing env w req hne, hall]
  · rw [generateMemeCaptionRoute_missing env w req hne, hall]
  · rw [createMemeRoute_missing env w req hne, hall]
  · rw [generateNewsMemeRoute_missing env w req hne, hall]
  · rw [puchGenerateMemeRoute_missing env w req hne, hall]

/-- **C10 witness**: with no credentials at all, `/get_meme_templates`
behaves exactly as with all credentials, while `/fetch_indian_news` fails
with the config error listing all four keys. -/
theorem C10_witness :
    getMemeTemplatesRoute envNone worldW = getMemeTemplatesRoute envAll worldW ∧
    fetchIndianNewsRoute envNone worldW ⟨none⟩ =
      .fail ("Missing required environment variables: " ++ joinComma requiredVars) :=
  ⟨C10_templates_route_skips_credential_check.1 envNone envAll worldW,
    (C10_templates_route_skips_credential_check.2.2 envNone (fun _ => rfl)).1 worldW ⟨none⟩⟩

/-! ## C7 -/

/-- **C7 counterexample.** A successful (HTTP-ok) response whose parsed body
is JSON `null` lacks a list-shaped `results` field (property lookup yields
`undefined`), yet `fetchIndianNews` does not return an empty sequence: the
access `data.results` throws a `TypeError`, which the route surfaces as a
failure. -/
theorem C7_counterexample :
    objGet Json.null "results" = none ∧
    fetchIndianNews "" ⟨true, 200, "OK", .null⟩ =
      .error "TypeError: Cannot read properties of null (reading 'results')" :=
  ⟨rfl, rfl⟩

/-- **C7 (amended).** For every successful (HTTP-ok) response whose parsed
body is not JSON `null` and lacks a list-shaped `results` field,
`fetchIndianNews` returns the empty sequence rather than failing. -/
theorem C7_amended_nonnull_body_defaults_empty :
    ∀ (topic : String) (r : HttpResp), r.ok = true → r.body ≠ .null →
      (∀ l : JsonArr, objGet r.body "results" ≠ some (.arr l)) →
      fetchIndianNews topic r = .ok .nil := by
  intro topic r hok hnull hno
  simp only [fetchIndianNews, hok, Bool.not_true, Bool.false_eq_true, if_false]
  cases hb : r.body with
  | null => exact absurd hb hnull
  | bool b => rfl
  | num d => rfl
  | str s => rfl
  | arr l => rfl
  | obj fs =>
      rw [hb] at hno
      simp only [jsField]

/-- **C7 witness**: an object body without a `results` array yields `ok []`. -/
theorem C7_witness :
    fetchIndianNews "" ⟨true, 200, "OK", .obj (.cons "status" (.str "error") .nil)⟩ =
      .ok .nil :=
  C7_amended_nonnull_body_defaults_empty ""
    ⟨true, 200, "OK", .obj (.cons "status" (.str "error") .nil)⟩
    rfl (fun h => Json.noConfusion h) (fun _ h => Option.noConfusion h)

/-! ## C4 -/

/-- **C4 counterexample.** A payload whose in-band success flag is true but
which has no `data` field: `fetchImgflipTemplates` does not return a
(possibly empty) template sequence — `json.data.memes` throws. -/
theorem C4_counterexample :
    jsTruthyOpt (objGet (.obj (.cons "success" (.bool true) .nil)) "success") = true ∧
    fetchImgflipTemplates ⟨true, 200, "OK", .obj (.cons "success" (.bool true) .nil)⟩ =
      .error "TypeError: Cannot read properties of undefined (reading 'memes')" :=
  ⟨rfl, rfl⟩

/-- No `null` among the elements (destructuring `null` would throw). -/
def JsonArr.noNull : JsonArr → Bool
  | .nil => true
  | .cons .null _ => false
  | .cons _ t => t.noNull

theorem JsonArr.take_length_le : ∀ (n : ℕ) (l : JsonArr), (JsonArr.take n l).length ≤ n := by
  intro n
  induction n with
  | zero => intro l; cases l <;> simp [JsonArr.take, JsonArr.length]
  | succ n ih =>
      intro l
      cases l with
      | nil => simp [JsonArr.take, JsonArr.length]
      | cons h t => simpa [JsonArr.take, JsonArr.length, Nat.succ_le_succ_iff] using ih t

theorem JsonArr.noNull_cons {hd : Json} {tl : JsonArr}
    (h : JsonArr.noNull (.cons hd tl) = true) :
    hd ≠ .null ∧ tl.noNull = true := by
  cases hd with
  | null => exact absurd h (by simp [JsonArr.noNull])
  | bool b => exact ⟨fun hh => Json.noConfusion hh, h⟩
  | num d => exact ⟨fun hh => Json.noConfusion hh, h⟩
  | str s => exact ⟨fun hh => Json.noConfusion hh, h⟩
  | arr a => exact ⟨fun hh => Json.noConfusion hh, h⟩
  | obj o => exact ⟨fun hh => Json.noConfusion hh, h⟩

theorem projectTemplates_cons_of_ne_null (hd : Json) (tl : JsonArr) (h : hd ≠ .null) :
    projectTemplates (.cons hd tl) =
      match projectTemplates tl with
      | .error m => .error m
      | .ok ts => .ok (⟨jsToNumber (objGet hd "id"), objGet hd "name"⟩ :: ts) := by
  cases hd with
  | null => exact absurd rfl h
  | bool b => rfl
  | num d => rfl
  | str s => rfl
  | arr a => rfl
  | obj o => rfl

theorem projectTemplates_ok_of_noNull :
    ∀ (l : JsonArr), l.noNull = true →
      ∃ ts, projectTemplates l = .ok ts ∧ ts.length = l.length ∧
        ∀ t ∈ ts, ∃ j ∈ l.toList,
          t.id = jsToNumber (objGet j "id") ∧ t.name = objGet j "name"
  | .nil => fun _ => ⟨[], rfl, rfl, by simp⟩
  | .cons hd tl => fun hnn => by
      obtain ⟨hne, htl⟩ := JsonArr.noNull_cons hnn
      obtain ⟨ts, hts, hlen, hmem⟩ := projectTemplates_ok_of_noNull tl htl
      refine ⟨⟨jsToNumber (objGet hd "id"), objGet hd "name"⟩ :: ts, ?_, ?_, ?_⟩
      · rw [projectTemplates_cons_of_ne_null hd tl hne, hts]
      · simp [JsonArr.length, hlen]
      · intro t ht
        rcases List.mem_cons.mp ht with rfl | ht
        · exact ⟨hd, by simp [JsonArr.toList], rfl, rfl⟩
        · obtain ⟨j, hj, h1, h2⟩ := hmem t ht
          exact ⟨j, by simp [JsonArr.toList, hj], h1, h2⟩

/-- **C4 (amended).** For every HTTP-ok template-catalog payload whose
in-band success flag is truthy **and** whose `data.memes` is an array none of
whose first 100 elements is `null`, `fetchImgflipTemplates` returns a
sequence of at most 100 elements, each the projection of one of the first
100 array elements to `{id, name}` with `id` coerced by `Number(...)`. -/
theorem C4_amended_templates_truncated_projected :
    ∀ (r : HttpResp) (dj : Json) (memes : JsonArr),
      r.ok = true →
      jsTruthyOpt (objGet r.body "success") = true →
      objGet r.body "data" = some dj →
      objGet dj "memes" = some (.arr memes) →
      (JsonArr.take 100 memes).noNull = true →
      ∃ ts, fetchImgflipTemplates r = .ok ts ∧ ts.length ≤ 100 ∧
        ∀ t ∈ ts, ∃ j ∈ (JsonArr.take 100 memes).toList,
          t.id = jsToNumber (objGet j "id") ∧ t.name = objGet j "name" := by
  intro r dj memes hok hsucc hdata hmemes hnn
  obtain ⟨ts, hts, hlen, hmem⟩ := projectTemplates_ok_of_noNull _ hnn
  refine ⟨ts, ?_, ?_, hmem⟩
  · simp only [fetchImgflipTemplates, hok, Bool.not_true, Bool.false_eq_true, if_false]
    cases hb : r.body with
    | null => rw [hb] at hsucc; simp [objGet, jsTruthyOpt] at hsucc
    | bool b => rw [hb] at hsucc; simp [objGet, jsTruthyOpt] at hsucc
    | num d => rw [hb] at hsucc; simp [objGet, jsTruthyOpt] at hsucc
    | str s => rw [hb] at hsucc; simp [objGet, jsTruthyOpt] at hsucc
    | arr l => rw [hb] at hsucc; simp [objGet, jsTruthyOpt] at hsucc
    | obj fs =>
        rw [hb] at hsucc hdata
        simp only [jsField, hsucc, Bool.not_true, Bool.false_eq_true, if_false, hdata]
        cases dj with
        | null => simp [objGet] at hmemes
        | bool b => simp [objGet] at hmemes
        | num d => simp [objGet] at hmemes
        | str s => simp [objGet] at hmemes
        | arr l => simp [objGet] at hmemes
        | obj dfs => simp only [hmemes, hts]
  · rw [hlen]; exact JsonArr.take_length_le 100 memes

/-- **C4 witness**: the amended theorem applied at the concrete one-template
catalog payload. -/
theorem C4_witness :
    ∃ ts, fetchImgflipTemplates imgflipRespW = .ok ts ∧ ts.length ≤ 100 ∧
      ∀ t ∈ ts, ∃ j ∈ (JsonArr.take 100 (.cons memeTemplateW .nil)).toList,
        t.id = jsToNumber (objGet j "id") ∧ t.name = objGet j "name" :=
  C4_amended_templates_truncated_projected imgflipRespW
    (.obj (.cons "memes" (.arr (.cons memeTemplateW .nil)) .nil))
    (.cons memeTemplateW .nil) rfl rfl rfl rfl rfl

/-! ## C5 -/

/-- **C5.** Caption parsing is a total function into caption-or-`null`: for
every input string it returns either a `MemeCaption` or `null` (exceptions
are caught inside `parseMemeCaption`), and on the spec's malformed examples
(unbalanced braces, non-JSON text) it returns `null`. -/
theorem C5_parse_never_raises :
    (∀ s : String, parseMemeCaption s = none ∨ ∃ c, parseMemeCaption s = some c) ∧
    parseMemeCaption "\x7b\"image\": 1, \"topText\": \"a\"" = none ∧
    parseMemeCaption "not json" = none := by
  refine ⟨fun s => ?_, rfl, rfl⟩
  cases h : parseMemeCaption s
  · exact Or.inl rfl
  · exact Or.inr ⟨_, rfl⟩

/-! ## C2 -/

/-- Whether a JS number is a finite integer (meaningful on canonical values:
a canonical `m * 10 ^ e` is an integer iff `e ≥ 0`). -/
def JsNum.isFiniteInt : JsNum → Bool
  | .fin d => 0 ≤ d.e
  | _ => false

/-- **C2 counterexample.** Parsing a valid JSON object with no `image` field
returns a non-null caption whose `image` is `Number(undefined) = NaN` — not
a finite integer. -/
theorem C2_counterexample :
    parseMemeCaption "\x7b\"topText\":\"a\",\"bottomText\":\"b\"\x7d" =
      some ⟨.nan, "a", "b"⟩ ∧
    JsNum.isFiniteInt .nan = false :=
  ⟨rfl, rfl⟩

/-- **C2 (amended).** Whenever caption parsing returns a non-null
`MemeCaption`, its `topText`/`bottomText` are the string coercions and its
`image` the numeric coercion of the corresponding fields of the parsed
(non-null) JSON value; `image` need not be a finite integer (it is `NaN`
when the field is missing or non-numeric), but whenever the `image` field is
a JSON number `d`, the result's `image` is exactly the finite number `d`. -/
theorem C2_amended_caption_field_coercions :
    ∀ (s : String) (c : MemeCaption), parseMemeCaption s = some c →
      ∃ j : Json, j ≠ .null ∧
        parseJsonChars (trimBoth (replaceFence (replaceFenceJson s.data))) = some j ∧
        c.image = jsToNumber (objGet j "image") ∧
        c.topText = jsToStringU (objGet j "topText") ∧
        c.bottomText = jsToStringU (objGet j "bottomText") ∧
        (∀ d : Dec, objGet j "image" = some (.num d) → c.image = .fin d) := by
  intro s c h
  simp only [parseMemeCaption] at h
  cases hp : parseJsonChars (trimBoth (replaceFence (replaceFenceJson s.data))) with
  | none => rw [hp] at h; exact absurd h (by simp)
  | some j =>
      rw [hp] at h
      cases j with
      | null => exact absurd h (by simp)
      | bool b =>
          cases h
          exact ⟨.bool b, fun hh => Json.noConfusion hh, rfl, rfl, rfl, rfl,
            fun d hd => by rw [hd]; rfl⟩
      | num d' =>
          cases h
          exact ⟨.num d', fun hh => Json.noConfusion hh, rfl, rfl, rfl, rfl,
            fun d hd => by rw [hd]; rfl⟩
      | str s' =>
          cases h
          exact ⟨.str s', fun hh => Json.noConfusion hh, rfl, rfl, rfl, rfl,
            fun d hd => by rw [hd]; rfl⟩
      | arr a =>
          cases h
          exact ⟨.arr a, fun hh => Json.noConfusion hh, rfl, rfl, rfl, rfl,
            fun d hd => by rw [hd]; rfl⟩
      | obj o =>
          cases h
          exact ⟨.obj o, fun hh => Json.noConfusion hh, rfl, rfl, rfl, rfl,
            fun d hd => by rw [hd]; rfl⟩

/-- **C2 witness**: the amended theorem applied at a concrete well-formed
caption string. -/
theorem C2_witness :
    ∃ j : Json, j ≠ .null ∧
      parseJsonChars (trimBoth (replaceFence (replaceFenceJson
        "\x7b\"image\":3,\"topText\":\"a\",\"bottomText\":\"b\"\x7d".data))) = some j ∧
      (MemeCaption.mk (.fin ⟨3, 0⟩) "a" "b").image = jsToNumber (objGet j "image") ∧
      (MemeCaption.mk (.fin ⟨3, 0⟩) "a" "b").topText = jsToStringU (objGet j "topText") ∧
      (MemeCaption.mk (.fin ⟨3, 0⟩) "a" "b").bottomText = jsToStringU (objGet j "bottomText") ∧
      (∀ d : Dec, objGet j "image" = some (.num d) →
        (MemeCaption.mk (.fin ⟨3, 0⟩) "a" "b").image = .fin d) :=
  C2_amended_caption_field_coercions
    "\x7b\"image\":3,\"topText\":\"a\",\"bottomText\":\"b\"\x7d" ⟨.fin ⟨3, 0⟩, "a", "b"⟩ rfl

/-! ## C6: the fence replacements are the identity on triple-free input -/

theorem hasTriple_tail {c : Char} {l : List Char} (h : hasTriple (c :: l) = false) :
    hasTriple l = false := by
  match l with
  | [] => rfl
  | [b] => rfl
  | b :: c' :: rest =>
      simp only [hasTriple, Bool.or_eq_false_iff] at h
      exact h.2

theorem hasTriple_cons_of_tail {c : Char} {l : List Char} (h : hasTriple l = true) :
    hasTriple (c :: l) = true := by
  match l with
  | [] => exact absurd h (by simp [hasTriple])
  | [b] => exact absurd h (by simp [hasTriple])
  | b :: c' :: rest =>
      simp only [hasTriple, Bool.or_eq_true] at h ⊢
      exact Or.inr h

theorem replaceFence_id : ∀ l, hasTriple l = false → replaceFence l = l
  | [] => fun _ => rfl
  | [_] => fun _ => rfl
  | [_, _] => fun _ => rfl
  | a :: b :: c :: rest => fun h => by
      have ht : (a == '`' && b == '`' && c == '`') = false := by
        simp only [hasTriple, Bool.or_eq_false_iff] at h
        exact h.1
      simp only [replaceFence, ht, Bool.false_eq_true, if_false]
      rw [replaceFence_id (b :: c :: rest) (hasTriple_tail h)]

theorem replaceFenceJson_id : ∀ l, hasTriple l = false → replaceFenceJson l = l
  | [] => fun _ => rfl
  | [_] => fun _ => rfl
  | [_, _] => fun _ => rfl
  | [_, _, _] => fun _ => rfl
  | [_, _, _, _] => fun _ => rfl
  | [_, _, _, _, _] => fun _ => rfl
  | [_, _, _, _, _, _] => fun _ => rfl
  | a :: b :: c :: d :: e :: f :: g :: rest => fun h => by
      have ht : (a == '`' && b == '`' && c == '`') = false := by
        simp only [hasTriple, Bool.or_eq_false_iff] at h
        exact h.1
      simp only [replaceFenceJson, ht, Bool.false_and, Bool.false_eq_true, if_false]
      rw [replaceFenceJson_id (b :: c :: d :: e :: f :: g :: rest) (hasTriple_tail h)]

theorem btRunOk_step_nonbt {c : Char} (hc : (c == '`') = false) (k : ℕ) (l : List Char) :
    btRunOk k (c :: l) = btRunOk 0 l := by
  simp [btRunOk, hc]

theorem btRunOk_zero_append_noBt : ∀ (xs ys : List Char), noBt xs = true →
    btRunOk 0 (xs ++ ys) = btRunOk 0 ys
  | [], ys => fun _ => rfl
  | x :: xs', ys => fun h => by
      simp only [noBt, List.all_cons, Bool.and_eq_true, Bool.not_eq_eq_eq_not, Bool.not_true] at h
      rw [List.cons_append, btRunOk_step_nonbt h.1]
      exact btRunOk_zero_append_noBt xs' ys (by simpa [noBt] using h.2)

theorem btRunOk_append_noBt_ne_nil : ∀ (xs ys : List Char) (k : ℕ), noBt xs = true →
    xs ≠ [] → btRunOk k (xs ++ ys) = btRunOk 0 ys := by
  intro xs ys k hx hne
  match xs, hne with
  | x :: xs', _ =>
      simp only [noBt, List.all_cons, Bool.and_eq_true, Bool.not_eq_eq_eq_not, Bool.not_true] at hx
      rw [List.cons_append, btRunOk_step_nonbt hx.1]
      exact btRunOk_zero_append_noBt xs' ys (by simpa [noBt] using hx.2)

theorem leadBtGe_three_hasTriple : ∀ l, leadBtGe 3 l = true → hasTriple l = true := by
  intro l h
  match l with
  | [] => exact absurd h (by simp [leadBtGe])
  | [_] => exact absurd h (by simp [leadBtGe])
  | [_, _] => exact absurd h (by simp [leadBtGe])
  | a :: b :: c :: rest =>
      simp only [leadBtGe, Bool.and_eq_true] at h
      simp only [hasTriple, Bool.or_eq_true]
      exact Or.inl (by simp [h.1, h.2.1, h.2.2.1])

theorem btRunOk_of_noTriple_aux : ∀ (l : List Char) (k : ℕ), k ≤ 2 →
    hasTriple l = false → leadBtGe (3 - k) l = false → btRunOk k l = true := by
  intro l
  induction l with
  | nil => intro k _ _ _; rfl
  | cons c cs ih =>
      intro k hk h hlead
      by_cases hc : (c == '`') = true
      · have hk1 : k ≤ 1 := by
          by_contra hgt
          have hk2 : k = 2 := by omega
          subst hk2
          simp [leadBtGe, hc] at hlead
        obtain ⟨n, hn⟩ : ∃ n, 3 - k = n + 1 := ⟨2 - k, by omega⟩
        rw [hn] at hlead
        simp only [leadBtGe, hc, Bool.true_and] at hlead
        have hrec := ih (k + 1) (by omega) (hasTriple_tail h)
          (by rw [show 3 - (k + 1) = n from by omega]; exact hlead)
        simp [btRunOk, hc, show ¬ 2 ≤ k from by omega, hrec]
      · rw [btRunOk_step_nonbt (by simpa using hc)]
        refine ih 0 (by omega) (hasTriple_tail h) ?_
        by_contra hl3
        have hl3' : leadBtGe 3 cs = true := by
          cases hh : leadBtGe 3 cs
          · exact absurd hh hl3
          · rfl
        exact absurd (hasTriple_cons_of_tail (c := c) (leadBtGe_three_hasTriple cs hl3')) (by simp [h])

theorem btRunOk_of_noTriple {l : List Char} (h : hasTriple l = false) :
    btRunOk 0 l = true := by
  refine btRunOk_of_noTriple_aux l 0 (by omega) h ?_
  by_contra hl3
  have hl3' : leadBtGe 3 l = true := by
    cases hh : leadBtGe 3 l
    · exact absurd hh hl3
    · rfl
  exact absurd (leadBtGe_three_hasTriple l hl3') (by simp [h])

theorem noTriple_of_btRunOk : ∀ (l : List Char) (k : ℕ), btRunOk k l = true →
    hasTriple l = false
  | [] => fun _ _ => rfl
  | [_] => fun _ _ => rfl
  | [_, _] => fun _ _ => rfl
  | a :: b :: c :: rest => fun k h => by
      by_cases ha : (a == '`') = true
      · have hk : ¬ 2 ≤ k := by
          intro hk
          simp [btRunOk, ha, hk] at h
        have h1 : btRunOk (k + 1) (b :: c :: rest) = true := by
          simpa [btRunOk, ha, hk] using h
        have hrec := noTriple_of_btRunOk (b :: c :: rest) (k + 1) h1
        have htest : (a == '`' && b == '`' && c == '`') = false := by
          by_cases hb : (b == '`') = true
          · by_cases hc : (c == '`') = true
            · exfalso
              have hk1 : ¬ 2 ≤ k + 1 := by
                intro hh
                simp [btRunOk, hb, hh] at h1
              have h2 : btRunOk (k + 2) (c :: rest) = true := by
                simpa [btRunOk, hb, hk1] using h1
              simp [btRunOk, hc, show 2 ≤ k + 2 from by omega] at h2
            · simp [hc]
          · simp [hb]
        simp [hasTriple, htest, hrec]
      · have h1 : btRunOk 0 (b :: c :: rest) = true := by
          rw [btRunOk_step_nonbt (by simpa using ha)] at h
          exact h
        have hrec := noTriple_of_btRunOk (b :: c :: rest) 0 h1
        simp [hasTriple, ha, hrec]

theorem hexChar_ne_bt : ∀ n, (hexChar n == '`') = false := by
  intro n
  unfold hexChar
  split <;> rfl

theorem digitChar_ne_bt : ∀ n, (digitChar n == '`') = false := by
  intro n
  unfold digitChar
  split <;> rfl

theorem escChar_ne_nil (c : Char) : escChar c ≠ [] := by
  unfold escChar
  split_ifs <;> simp

theorem escChar_noBt {c : Char} (hc : (c == '`') = false) : noBt (escChar c) = true := by
  unfold escChar
  split_ifs with h1 h2 h3 h4 h5 h6 h7 h8 <;>
    simp_all [noBt, hexChar_ne_bt]

theorem escChar_bt : escChar '`' = ['`'] := rfl

theorem btRunOk_escape : ∀ (s : List Char) (k : ℕ) (ys : List Char), k ≤ 2 →
    btRunOk k s = true → (∀ k' ≤ 2, btRunOk k' ys = true) →
    btRunOk k (escapeStr s ++ ys) = true
  | [], k, ys => fun hk _ hys => hys k hk
  | c :: cs, k, ys => fun hk h hys => by
      by_cases hc : (c == '`') = true
      · have hceq : c = '`' := by simpa using hc
        subst hceq
        have hk1 : ¬ 2 ≤ k := by
          intro hh
          simp [btRunOk, hh] at h
        have h1 : btRunOk (k + 1) cs = true := by
          simpa [btRunOk, hk1] using h
        show btRunOk k ((escChar '`' ++ escapeStr cs) ++ ys) = true
        rw [escChar_bt]
        simp only [List.cons_append, List.nil_append]
        have hstep : btRunOk k ('`' :: (escapeStr cs ++ ys)) =
            btRunOk (k + 1) (escapeStr cs ++ ys) := by
          simp [btRunOk, hk1]
        rw [hstep]
        exact btRunOk_escape cs (k + 1) ys (by omega) h1 hys
      · have hcb : (c == '`') = false := by simpa using hc
        have h1 : btRunOk 0 cs = true := by
          rw [btRunOk_step_nonbt hcb] at h
          exact h
        show btRunOk k ((escChar c ++ escapeStr cs) ++ ys) = true
        rw [List.append_assoc, btRunOk_append_noBt_ne_nil _ _ _ (escChar_noBt hcb) (escChar_ne_nil c)]
        exact btRunOk_escape cs 0 ys (by omega) h1 hys

theorem noBt_of_subset {l' l : List Char} (hs : l' ⊆ l) (h : noBt l = true) :
    noBt l' = true := by
  simp only [noBt, List.all_eq_true] at h ⊢
  exact fun c hc => h c (hs hc)

theorem noBt_append {xs ys : List Char} (hx : noBt xs = true) (hy : noBt ys = true) :
    noBt (xs ++ ys) = true := by
  simp only [noBt, List.all_eq_true] at hx hy ⊢
  intro c hc
  rcases List.mem_append.mp hc with h | h
  · exact hx c h
  · exact hy c h

theorem noBt_natCharsAux : ∀ (fuel n : ℕ), noBt (natCharsAux fuel n) = true
  | 0, _ => rfl
  | _+1, 0 => rfl
  | fuel+1, n+1 => by
      simp only [natCharsAux, noBt, List.all_cons, Bool.and_eq_true]
      exact ⟨by simp [digitChar_ne_bt], by simpa [noBt] using noBt_natCharsAux fuel ((n+1) / 10)⟩

theorem noBt_reverse {l : List Char} (h : noBt l = true) : noBt l.reverse = true := by
  simp only [noBt, List.all_eq_true] at h ⊢
  intro c hc
  exact h c (List.mem_reverse.mp hc)

theorem noBt_natChars (n : ℕ) : noBt (natChars n) = true := by
  unfold natChars
  split_ifs
  · rfl
  · exact noBt_reverse (noBt_natCharsAux n n)

theorem noBt_replicate_zero (n : ℕ) : noBt (List.replicate n '0') = true := by
  simp only [noBt, List.all_eq_true]
  intro c hc
  rw [List.eq_of_mem_replicate hc]
  rfl

theorem noBt_decCharsNat (n : ℕ) (e : ℤ) : noBt (decCharsNat n e) = true := by
  have hds := noBt_natChars n
  simp only [decCharsNat]
  by_cases he : 0 ≤ e
  · rw [if_pos he]
    exact noBt_append hds (noBt_replicate_zero _)
  · rw [if_neg he]
    by_cases hk : (-e).toNat < (natChars n).length
    · rw [if_pos hk]
      refine noBt_append (noBt_of_subset (List.take_subset _ _) hds) ?_
      simp only [noBt, List.all_cons, Bool.and_eq_true]
      exact ⟨rfl, by simpa [noBt] using noBt_of_subset (List.drop_subset _ _) hds⟩
    · rw [if_neg hk]
      simp only [noBt, List.all_cons, Bool.and_eq_true]
      refine ⟨rfl, rfl, ?_⟩
      have hrep := noBt_append (noBt_replicate_zero ((-e).toNat - (natChars n).length)) hds
      simpa [noBt] using hrep

theorem noBt_decChars (m e : ℤ) : noBt (decChars m e) = true := by
  have hsign : noBt (if m < 0 then ['-'] else []) = true := by split_ifs <;> rfl
  exact noBt_append hsign (noBt_decCharsNat m.natAbs e)

/-! ## C6: digit strings and their values -/

theorem digitVal_digitChar {m : ℕ} (h : m < 10) : digitVal (digitChar m) = m := by
  interval_cases m <;> rfl

theorem digitChar_isDig (m : ℕ) : isDig (digitChar m) = true := by
  unfold digitChar
  split <;> rfl

theorem digitChar_ne_zero {m : ℕ} (h1 : 1 ≤ m) (h2 : m ≤ 9) : digitChar m ≠ '0' := by
  interval_cases m <;> decide

theorem valDigits_def (l : List Char) :
    List.foldl (fun a c => 10 * a + digitVal c) 0 l = valDigits l := rfl

theorem foldl_val_eq : ∀ (l : List Char) (a : ℕ),
    l.foldl (fun a c => 10 * a + digitVal c) a = a * 10 ^ l.length + valDigits l := by
  intro l
  induction l with
  | nil => intro a; simp [valDigits]
  | cons c cs ih =>
      intro a
      rw [List.foldl_cons, ih]
      have hv : valDigits (c :: cs) = digitVal c * 10 ^ cs.length + valDigits cs := by
        unfold valDigits
        rw [List.foldl_cons, ih, valDigits_def]
        ring
      rw [hv]
      simp only [List.length_cons]
      ring

theorem valDigits_cons (c : Char) (cs : List Char) :
    valDigits (c :: cs) = digitVal c * 10 ^ cs.length + valDigits cs := by
  unfold valDigits
  rw [List.foldl_cons, foldl_val_eq, valDigits_def]
  ring

theorem valDigits_append (xs ys : List Char) :
    valDigits (xs ++ ys) = valDigits xs * 10 ^ ys.length + valDigits ys := by
  unfold valDigits
  rw [List.foldl_append, foldl_val_eq, valDigits_def, valDigits_def]

theorem valDigits_replicate_zero_append (n : ℕ) (l : List Char) :
    valDigits (List.replicate n '0' ++ l) = valDigits l := by
  induction n with
  | zero => rfl
  | succ n ih =>
      rw [List.replicate_succ, List.cons_append, valDigits_cons]
      have h0 : digitVal '0' = 0 := rfl
      rw [h0]
      simpa using ih

theorem valDigits_zeros (n : ℕ) : valDigits (List.replicate n '0') = 0 := by
  have := valDigits_replicate_zero_append n []
  simpa using this

theorem natCharsAux_nil_right (fuel : ℕ) : natCharsAux fuel 0 = [] := by
  cases fuel <;> rfl

theorem natCharsAux_val : ∀ (fuel n : ℕ), n ≤ fuel →
    valDigits (natCharsAux fuel n).reverse = n
  | fuel, 0 => fun _ => by rw [natCharsAux_nil_right]; rfl
  | 0, n+1 => fun h => absurd h (by omega)
  | fuel+1, n+1 => fun h => by
      have hq : (n+1) / 10 ≤ fuel := by
        have := Nat.div_lt_self (Nat.succ_pos n) (by norm_num : 1 < 10)
        omega
      have ih := natCharsAux_val fuel ((n+1) / 10) hq
      simp only [natCharsAux, List.reverse_cons]
      rw [valDigits_append, ih]
      have hm : valDigits [digitChar ((n+1) % 10)] = (n+1) % 10 := by
        rw [valDigits_cons]
        simp [valDigits, digitVal_digitChar (Nat.mod_lt _ (by norm_num))]
      rw [hm]
      simp only [List.length_singleton]
      omega

theorem natCharsAux_mem_isDig : ∀ (fuel n : ℕ), ∀ c ∈ natCharsAux fuel n, isDig c = true
  | 0, _ => by simp [natCharsAux]
  | _+1, 0 => by simp [natCharsAux]
  | fuel+1, n+1 => by
      intro c hc
      simp only [natCharsAux, List.mem_cons] at hc
      rcases hc with rfl | hc
      · exact digitChar_isDig _
      · exact natCharsAux_mem_isDig fuel _ c hc

theorem natCharsAux_rev_head : ∀ (fuel n : ℕ), 1 ≤ n → n ≤ fuel →
    ∃ (dd : ℕ) (rest : List Char),
      (natCharsAux fuel n).reverse = digitChar dd :: rest ∧ 1 ≤ dd ∧ dd ≤ 9
  | 0, n => fun h1 h2 => absurd (h1.trans h2) (by omega)
  | _+1, 0 => fun h1 _ => absurd h1 (by omega)
  | fuel+1, n+1 => fun _ _ => by
      by_cases hq : (n+1) / 10 = 0
      · have hlt : n + 1 < 10 := by omega
        refine ⟨n+1, [], ?_, by omega, by omega⟩
        simp [natCharsAux, hq, natCharsAux_nil_right, Nat.mod_eq_of_lt hlt]
      · have hq1 : 1 ≤ (n+1) / 10 := by omega
        have hqf : (n+1) / 10 ≤ fuel := by
          have := Nat.div_lt_self (Nat.succ_pos n) (by norm_num : 1 < 10)
          omega
        obtain ⟨dd, rest, heq, hd1, hd9⟩ := natCharsAux_rev_head fuel ((n+1) / 10) hq1 hqf
        refine ⟨dd, rest ++ [digitChar ((n+1) % 10)], ?_, hd1, hd9⟩
        simp [natCharsAux, List.reverse_cons, heq]

theorem natChars_val (n : ℕ) : valDigits (natChars n) = n := by
  unfold natChars
  split_ifs with h
  · subst h; rfl
  · exact natCharsAux_val n n le_rfl

theorem natChars_mem_isDig (n : ℕ) : ∀ c ∈ natChars n, isDig c = true := by
  unfold natChars
  split_ifs with h
  · intro c hc
    simp only [List.mem_singleton] at hc
    subst hc; rfl
  · intro c hc
    exact natCharsAux_mem_isDig n n c (List.mem_reverse.mp hc)

theorem natChars_head (n : ℕ) (h : 1 ≤ n) :
    ∃ dd rest, natChars n = digitChar dd :: rest ∧ 1 ≤ dd ∧ dd ≤ 9 := by
  unfold natChars
  rw [if_neg (by omega)]
  exact natCharsAux_rev_head n n h le_rfl

theorem natChars_cons (n : ℕ) : ∃ c rest, natChars n = c :: rest ∧ isDig c = true := by
  by_cases h : n = 0
  · exact ⟨'0', [], by simp [natChars, h], rfl⟩
  · obtain ⟨dd, rest, heq, _, _⟩ := natChars_head n (by omega)
    exact ⟨digitChar dd, rest, heq, digitChar_isDig dd⟩

theorem natChars_ne_nil (n : ℕ) : natChars n ≠ [] := by
  obtain ⟨c, rest, heq, _⟩ := natChars_cons n
  rw [heq]
  simp

theorem takeWhile_all_append {p : Char → Bool} : ∀ (xs : List Char) (y : Char) (ys : List Char),
    (∀ c ∈ xs, p c = true) → p y = false →
    (xs ++ y :: ys).takeWhile p = xs ∧ (xs ++ y :: ys).dropWhile p = y :: ys
  | [], y, ys => fun _ hy => by
      simp [List.takeWhile_cons, List.dropWhile_cons, hy]
  | x :: xs', y, ys => fun hx hy => by
      have h1 := takeWhile_all_append xs' y ys (fun c hc => hx c (List.mem_cons_of_mem x hc)) hy
      simp [List.takeWhile_cons, List.dropWhile_cons, hx x (by simp), h1.1, h1.2]

/-! ## C6: `mkDec` facts -/

theorem stripTens_of_ndvd {m : ℤ} (fuel : ℕ) (e : ℤ) (h : m % 10 ≠ 0) :
    stripTens fuel m e = (m, e) := by
  cases fuel with
  | zero => rfl
  | succ f =>
      simp only [stripTens, ite_eq_right_iff]
      intro ⟨_, h10⟩
      exact absurd h10 h

theorem stripTens_pow {m : ℤ} (hm : m ≠ 0) (h : m % 10 ≠ 0) :
    ∀ (k fuel : ℕ) (e : ℤ), k ≤ fuel →
      stripTens fuel (m * 10 ^ k) e = (m, e + k) := by
  intro k
  induction k with
  | zero =>
      intro fuel e _
      simpa using stripTens_of_ndvd fuel e h
  | succ k ih =>
      intro fuel e hk
      obtain ⟨f, rfl⟩ : ∃ f, fuel = f + 1 := ⟨fuel - 1, by omega⟩
      have hne : m * 10 ^ (k+1) ≠ 0 := mul_ne_zero hm (by positivity)
      have hdvd : (10:ℤ) ∣ m * 10 ^ (k+1) := ⟨m * 10 ^ k, by ring⟩
      have hdv : m * 10 ^ (k+1) % 10 = 0 := Int.emod_eq_zero_of_dvd hdvd
      have hdiv : m * 10 ^ (k+1) / 10 = m * 10 ^ k := by
        rw [pow_succ, ← mul_assoc]
        exact Int.mul_ediv_cancel _ (by norm_num)
      simp only [stripTens]
      rw [if_pos ⟨hne, hdv⟩, hdiv, ih f (e+1) (by omega)]
      simp only [Prod.mk.injEq, true_and]
      push_cast
      ring

theorem le_natAbs_of_pow_dvd {m : ℤ} (hm : m ≠ 0) (k : ℕ)
    (hk : (10:ℤ) ^ k ∣ m) : k ≤ m.natAbs := by
  have h1 : (10:ℕ) ^ k ∣ m.natAbs := by
    have h := Int.natAbs_dvd_natAbs.mpr hk
    rw [Int.natAbs_pow] at h
    simpa using h
  have h2 : (10:ℕ) ^ k ≤ m.natAbs :=
    Nat.le_of_dvd (Int.natAbs_pos.mpr hm) h1
  have h3 : k < 10 ^ k := Nat.lt_pow_self (by norm_num) k
  omega

theorem mkDec_canon {m : ℤ} (e : ℤ) (h : m % 10 ≠ 0) : mkDec m e = ⟨m, e⟩ := by
  have hm : m ≠ 0 := by rintro rfl; simp at h
  simp only [mkDec, if_neg hm, stripTens_of_ndvd _ _ h]

theorem mkDec_mul_pow {m : ℤ} (h : m % 10 ≠ 0) (k : ℕ) (e : ℤ) :
    mkDec (m * 10 ^ k) e = ⟨m, e + k⟩ := by
  have hm : m ≠ 0 := by rintro rfl; simp at h
  have hne : m * 10 ^ k ≠ 0 := mul_ne_zero hm (by positivity)
  simp only [mkDec, if_neg hne]
  have hfuel : k ≤ (m * 10 ^ k).natAbs :=
    le_natAbs_of_pow_dvd hne k ⟨m, by ring⟩
  rw [stripTens_pow hm h k (m * 10 ^ k).natAbs e hfuel]

/-! ## C6: the string-escape round trip -/

theorem escChar_length_pos (c : Char) : 1 ≤ (escChar c).length := by
  unfold escChar
  split_ifs <;> simp

theorem escapeStr_length_ge : ∀ s : List Char, s.length ≤ (escapeStr s).length := by
  intro s
  induction s with
  | nil => simp [escapeStr]
  | cons c cs ih =>
      simp only [escapeStr, List.length_append, List.length_cons]
      have := escChar_length_pos c
      omega

theorem hexDig_hexChar : ∀ v < 16, isHexDig (hexChar v) = true ∧ hexVal (hexChar v) = v := by
  decide

theorem parseStrBody_escape : ∀ (s : List Char) (rest : List Char) (F : ℕ),
    s.length + 1 ≤ F → parseStrBody F (escapeStr s ++ '"' :: rest) = some (s, rest)
  | [], rest, F => fun hF => by
      obtain ⟨F', rfl⟩ : ∃ F', F = F' + 1 := ⟨F - 1, by omega⟩
      simp only [escapeStr, List.nil_append]
      rw [parseStrBody]
      rfl
  | c :: cs, rest, F => fun hF => by
      obtain ⟨F', rfl⟩ : ∃ F', F = F' + 1 := ⟨F - 1, by omega⟩
      have hF' : cs.length + 1 ≤ F' := by
        simp only [List.length_cons] at hF
        omega
      have ih := parseStrBody_escape cs rest F' hF'
      simp only [escapeStr, List.append_assoc]
      by_cases h1 : c = '"'
      · subst h1
        rw [show escChar '"' = ['\\', '"'] from rfl]
        simp only [List.cons_append, List.nil_append]
        rw [parseStrBody, decodeEsc]
        simp +decide [ih]
      by_cases h2 : c = '\\'
      · subst h2
        rw [show escChar '\\' = ['\\', '\\'] from rfl]
        simp only [List.cons_append, List.nil_append]
        rw [parseStrBody, decodeEsc]
        simp +decide [ih]
      by_cases h3 : c = '\x08'
      · subst h3
        rw [show escChar '\x08' = ['\\', 'b'] from rfl]
        simp only [List.cons_append, List.nil_append]
        rw [parseStrBody, decodeEsc]
        simp +decide [ih]
      by_cases h4 : c = '\t'
      · subst h4
        rw [show escChar '\t' = ['\\', 't'] from rfl]
        simp only [List.cons_append, List.nil_append]
        rw [parseStrBody, decodeEsc]
        simp +decide [ih]
      by_cases h5 : c = '\n'
      · subst h5
        rw [show escChar '\n' = ['\\', 'n'] from rfl]
        simp only [List.cons_append, List.nil_append]
        rw [parseStrBody, decodeEsc]
        simp +decide [ih]
      by_cases h6 : c = '\x0c'
      · subst h6
        rw [show escChar '\x0c' = ['\\', 'f'] from rfl]
        simp only [List.cons_append, List.nil_append]
        rw [parseStrBody, decodeEsc]
        simp +decide [ih]
      by_cases h7 : c = '\r'
      · subst h7
        rw [show escChar '\r' = ['\\', 'r'] from rfl]
        simp only [List.cons_append, List.nil_append]
        rw [parseStrBody, decodeEsc]
        simp +decide [ih]
      by_cases h8 : c.toNat < 32
      · have hesc : escChar c =
            ['\\', 'u', '0', '0', hexChar (c.toNat / 16), hexChar (c.toNat % 16)] := by
          unfold escChar
          rw [if_neg h1, if_neg h2, if_neg h3, if_neg h4, if_neg h5, if_neg h6, if_neg h7,
            if_pos h8]
        rw [hesc]
        simp only [List.cons_append, List.nil_append]
        rw [parseStrBody, decodeEsc]
        simp +decide only [if_false, if_true]
        rw [decodeHexEsc]
        have hd1 := hexDig_hexChar (c.toNat / 16) (by omega)
        have hd2 := hexDig_hexChar (c.toNat % 16) (by omega)
        simp only [show isHexDig '0' = true from rfl, show hexVal '0' = 0 from rfl,
          hd1.1, hd1.2, hd2.1, hd2.2, Bool.and_self, Bool.true_and, Bool.and_true, if_true]
        rw [if_neg (by omega), if_neg (by omega),
          show ((0 * 16 + 0) * 16 + c.toNat / 16) * 16 + c.toNat % 16 = c.toNat by omega,
          Char.ofNat_toNat]
        simp [ih]
      · have hesc : escChar c = [c] := by
          unfold escChar
          rw [if_neg h1, if_neg h2, if_neg h3, if_neg h4, if_neg h5, if_neg h6, if_neg h7,
            if_neg h8]
        rw [hesc]
        simp only [List.cons_append, List.nil_append]
        rw [parseStrBody]
        rw [if_neg (by simp [h1]), if_neg (by simp [h2]), if_neg h8]
        rw [ih]
        rfl

theorem ne_dash_of_isDig {c : Char} (h : isDig c = true) : c ≠ '-' := by
  intro hc; subst hc; exact absurd h (by decide)

theorem parseFrac_not_dot {c : Char} (l : List Char) (h : c ≠ '.') :
    parseFrac (c :: l) = some ([], c :: l) := by
  unfold parseFrac
  split
  · rename_i r heq
    injection heq with h1 _
    exact absurd h1 h
  · rfl

theorem parseExp_not_e {c : Char} (l : List Char) (h1 : c ≠ 'e') (h2 : c ≠ 'E') :
    parseExp (c :: l) = some (0, c :: l) := by
  unfold parseExp
  split
  · rename_i r heq
    injection heq with ha _
    exact absurd ha h1
  · rename_i r heq
    injection heq with ha _
    exact absurd ha h2
  · rfl

theorem parseJsonNumber_int_neg (I : List Char) (c0 : Char) (rest : List Char)
    (hI : ∀ c ∈ I, isDig c = true) (hIne : I ≠ [])
    (hlead : ¬(I.head? = some '0' ∧ I ≠ ['0']))
    (hc0 : isDig c0 = false) (hdot : c0 ≠ '.') (he : c0 ≠ 'e') (hE : c0 ≠ 'E') :
    parseJsonNumber ('-' :: (I ++ c0 :: rest)) =
      some (mkDec (-(valDigits I : ℤ)) 0, c0 :: rest) := by
  obtain ⟨htw, hdw⟩ := takeWhile_all_append I c0 rest hI hc0
  unfold parseJsonNumber
  simp only [htw, hdw]
  rw [if_neg hIne, if_neg hlead]
  simp only [parseFrac_not_dot rest hdot, parseExp_not_e rest he hE, if_true]
  norm_num [show valDigits [] = 0 from rfl]

theorem parseJsonNumber_int_pos (I : List Char) (c0 : Char) (rest : List Char)
    (hI : ∀ c ∈ I, isDig c = true) (hIne : I ≠ [])
    (hlead : ¬(I.head? = some '0' ∧ I ≠ ['0']))
    (hc0 : isDig c0 = false) (hdot : c0 ≠ '.') (he : c0 ≠ 'e') (hE : c0 ≠ 'E') :
    parseJsonNumber (I ++ c0 :: rest) =
      some (mkDec (valDigits I : ℤ) 0, c0 :: rest) := by
  obtain ⟨htw, hdw⟩ := takeWhile_all_append I c0 rest hI hc0
  obtain ⟨c1, I2, rfl⟩ : ∃ c1 I2, I = c1 :: I2 := by
    cases I with
    | nil => exact absurd rfl hIne
    | cons a b => exact ⟨a, b, rfl⟩
  have hc1 : c1 ≠ '-' := ne_dash_of_isDig (hI c1 (by simp))
  unfold parseJsonNumber
  split
  · rename_i r heq
    injection heq with ha _
    exact absurd ha hc1
  · rename_i heq
    simp only [htw, hdw]
    rw [if_neg hIne, if_neg hlead]
    simp only [parseFrac_not_dot rest hdot, parseExp_not_e rest he hE]
    norm_num [show valDigits [] = 0 from rfl]

theorem parseFrac_dot (F : List Char) (c0 : Char) (rest : List Char)
    (hF : ∀ c ∈ F, isDig c = true) (hFne : F ≠ []) (hc0 : isDig c0 = false) :
    parseFrac ('.' :: (F ++ c0 :: rest)) = some (F, c0 :: rest) := by
  obtain ⟨htw, hdw⟩ := takeWhile_all_append F c0 rest hF hc0
  simp only [parseFrac, htw, hdw]
  rw [if_neg hFne]

theorem parseJsonNumber_frac_neg (I F : List Char) (c0 : Char) (rest : List Char)
    (hI : ∀ c ∈ I, isDig c = true) (hIne : I ≠ [])
    (hF : ∀ c ∈ F, isDig c = true) (hFne : F ≠ [])
    (hlead : ¬(I.head? = some '0' ∧ I ≠ ['0']))
    (hc0 : isDig c0 = false) (he : c0 ≠ 'e') (hE : c0 ≠ 'E') :
    parseJsonNumber ('-' :: (I ++ '.' :: (F ++ c0 :: rest))) =
      some (mkDec (-((valDigits I : ℤ) * 10 ^ F.length + (valDigits F : ℤ)))
        (0 - (F.length : ℤ)), c0 :: rest) := by
  obtain ⟨htw, hdw⟩ := takeWhile_all_append I '.' (F ++ c0 :: rest) hI (by decide)
  unfold parseJsonNumber
  simp only [htw, hdw]
  rw [if_neg hIne, if_neg hlead]
  simp only [parseFrac_dot F c0 rest hF hFne hc0, parseExp_not_e rest he hE, if_true]

theorem parseJsonNumber_frac_pos (I F : List Char) (c0 : Char) (rest : List Char)
    (hI : ∀ c ∈ I, isDig c = true) (hIne : I ≠ [])
    (hF : ∀ c ∈ F, isDig c = true) (hFne : F ≠ [])
    (hlead : ¬(I.head? = some '0' ∧ I ≠ ['0']))
    (hc0 : isDig c0 = false) (he : c0 ≠ 'e') (hE : c0 ≠ 'E') :
    parseJsonNumber (I ++ '.' :: (F ++ c0 :: rest)) =
      some (mkDec ((valDigits I : ℤ) * 10 ^ F.length + (valDigits F : ℤ))
        (0 - (F.length : ℤ)), c0 :: rest) := by
  obtain ⟨htw, hdw⟩ := takeWhile_all_append I '.' (F ++ c0 :: rest) hI (by decide)
  obtain ⟨c1, I2, rfl⟩ : ∃ c1 I2, I = c1 :: I2 := by
    cases I with
    | nil => exact absurd rfl hIne
    | cons a b => exact ⟨a, b, rfl⟩
  have hc1 : c1 ≠ '-' := ne_dash_of_isDig (hI c1 (by simp))
  unfold parseJsonNumber
  split
  · rename_i r heq
    injection heq with ha _
    exact absurd ha hc1
  · rename_i heq
    simp only [htw, hdw]
    rw [if_neg hIne, if_neg hlead]
    simp only [parseFrac_dot F c0 rest hF hFne hc0, parseExp_not_e rest he hE]
    norm_num

theorem parseJsonNumber_decChars (d : Dec) (hc : d.isCanon) (c0 : Char) (rest : List Char)
    (hc0 : isDig c0 = false) (hdot : c0 ≠ '.') (he : c0 ≠ 'e') (hE : c0 ≠ 'E') :
    parseJsonNumber (decChars d.m d.e ++ c0 :: rest) = some (d, c0 :: rest) := by
  obtain ⟨m, e⟩ := d
  simp only [Dec.isCanon] at hc
  by_cases hm0 : m = 0
  · subst hm0
    have he0 : e = 0 := by
      rcases hc with h | ⟨_, h⟩
      · simp at h
      · exact h
    subst he0
    have h0 : decChars 0 0 = ['0'] := rfl
    rw [h0, parseJsonNumber_int_pos ['0'] c0 rest (by decide) (by decide) (by decide)
      hc0 hdot he hE]
    rfl
  · have hc10 : m % 10 ≠ 0 := by
      rcases hc with h | ⟨h, _⟩
      · exact h
      · exact absurd h hm0
    have hn1 : 1 ≤ m.natAbs := by omega
    obtain ⟨dd, t, hds, hdd1, hdd9⟩ := natChars_head m.natAbs hn1
    by_cases hE0 : 0 ≤ e
    · -- nonnegative exponent: pure digit string, no fraction
      have hdec : decCharsNat m.natAbs e
          = natChars m.natAbs ++ List.replicate e.toNat '0' := by
        simp only [decCharsNat]
        rw [if_pos hE0]
      have hIdig : ∀ c ∈ natChars m.natAbs ++ List.replicate e.toNat '0',
          isDig c = true := by
        intro c hcm
        rcases List.mem_append.mp hcm with h | h
        · exact natChars_mem_isDig _ c h
        · rw [List.eq_of_mem_replicate h]; rfl
      have hIne : natChars m.natAbs ++ List.replicate e.toNat '0' ≠ [] := by
        simp [natChars_ne_nil m.natAbs]
      have hlead : ¬((natChars m.natAbs ++ List.replicate e.toNat '0').head? = some '0'
          ∧ natChars m.natAbs ++ List.replicate e.toNat '0' ≠ ['0']) := by
        rw [hds]
        rintro ⟨h1, _⟩
        simp only [List.cons_append, List.head?_cons, Option.some.injEq] at h1
        exact digitChar_ne_zero hdd1 hdd9 h1
      have hval : (valDigits (natChars m.natAbs ++ List.replicate e.toNat '0') : ℤ)
          = (m.natAbs : ℤ) * 10 ^ e.toNat := by
        rw [valDigits_append, natChars_val, valDigits_zeros, List.length_replicate]
        push_cast
        ring
      by_cases hneg : m < 0
      · have hsign : decChars m e
            = '-' :: (natChars m.natAbs ++ List.replicate e.toNat '0') := by
          unfold decChars
          rw [if_pos hneg, hdec]
          rfl
        rw [hsign, List.cons_append,
          parseJsonNumber_int_neg _ c0 rest hIdig hIne hlead hc0 hdot he hE, hval]
        have habs : ((m.natAbs : ℤ)) = -m := by omega
        have hmm : -((m.natAbs : ℤ) * 10 ^ e.toNat) = m * 10 ^ e.toNat := by
          rw [habs]; ring
        rw [hmm, mkDec_mul_pow hc10]
        have : (0 : ℤ) + (e.toNat : ℤ) = e := by omega
        rw [this]
      · have hsign : decChars m e
            = natChars m.natAbs ++ List.replicate e.toNat '0' := by
          unfold decChars
          rw [if_neg hneg, hdec]
          rfl
        rw [hsign,
          parseJsonNumber_int_pos _ c0 rest hIdig hIne hlead hc0 hdot he hE, hval]
        have habs : ((m.natAbs : ℤ)) = m := by omega
        rw [habs, mkDec_mul_pow hc10]
        have : (0 : ℤ) + (e.toNat : ℤ) = e := by omega
        rw [this]
    · -- negative exponent: a decimal point appears
      have hk1 : 1 ≤ (-e).toNat := by omega
      by_cases hk : (-e).toNat < (natChars m.natAbs).length
      · -- point inside the digit string
        have hdec : decCharsNat m.natAbs e
            = (natChars m.natAbs).take ((natChars m.natAbs).length - (-e).toNat)
              ++ '.' :: (natChars m.natAbs).drop ((natChars m.natAbs).length - (-e).toNat) := by
          simp only [decCharsNat]
          rw [if_neg hE0, if_pos hk]
        have hI : ∀ c ∈ (natChars m.natAbs).take ((natChars m.natAbs).length - (-e).toNat),
            isDig c = true :=
          fun c hcm => natChars_mem_isDig _ c (List.take_subset _ _ hcm)
        have hF : ∀ c ∈ (natChars m.natAbs).drop ((natChars m.natAbs).length - (-e).toNat),
            isDig c = true :=
          fun c hcm => natChars_mem_isDig _ c (List.drop_subset _ _ hcm)
        have hlenI : ((natChars m.natAbs).take ((natChars m.natAbs).length - (-e).toNat)).length
            = (natChars m.natAbs).length - (-e).toNat := by
          rw [List.length_take]
          omega
        have hlenF : ((natChars m.natAbs).drop ((natChars m.natAbs).length - (-e).toNat)).length
            = (-e).toNat := by
          rw [List.length_drop]
          omega
        have hIne : (natChars m.natAbs).take ((natChars m.natAbs).length - (-e).toNat) ≠ [] := by
          intro hnil
          rw [hnil] at hlenI
          simp at hlenI
          omega
        have hFne : (natChars m.natAbs).drop ((natChars m.natAbs).length - (-e).toNat) ≠ [] := by
          intro hnil
          rw [hnil] at hlenF
          simp at hlenF
          omega
        obtain ⟨s, hs⟩ : ∃ s, (natChars m.natAbs).length - (-e).toNat = s + 1 :=
          ⟨(natChars m.natAbs).length - (-e).toNat - 1, by omega⟩
        have htake : (natChars m.natAbs).take ((natChars m.natAbs).length - (-e).toNat)
            = digitChar dd :: t.take s := by
          rw [hs, hds, List.take_succ_cons]
        have hlead : ¬(((natChars m.natAbs).take
              ((natChars m.natAbs).length - (-e).toNat)).head? = some '0'
            ∧ (natChars m.natAbs).take ((natChars m.natAbs).length - (-e).toNat) ≠ ['0']) := by
          rw [htake]
          rintro ⟨h1, _⟩
          simp only [List.head?_cons, Option.some.injEq] at h1
          exact digitChar_ne_zero hdd1 hdd9 h1
        have hval : (valDigits ((natChars m.natAbs).take
                ((natChars m.natAbs).length - (-e).toNat)) : ℤ)
              * 10 ^ ((natChars m.natAbs).drop
                ((natChars m.natAbs).length - (-e).toNat)).length
              + (valDigits ((natChars m.natAbs).drop
                ((natChars m.natAbs).length - (-e).toNat)) : ℤ)
            = (m.natAbs : ℤ) := by
          have h1 := valDigits_append
            ((natChars m.natAbs).take ((natChars m.natAbs).length - (-e).toNat))
            ((natChars m.natAbs).drop ((natChars m.natAbs).length - (-e).toNat))
          rw [List.take_append_drop, natChars_val] at h1
          exact_mod_cast h1.symm
        by_cases hneg : m < 0
        · have hsign : decChars m e ++ c0 :: rest
              = '-' :: ((natChars m.natAbs).take ((natChars m.natAbs).length - (-e).toNat)
                ++ '.' :: ((natChars m.natAbs).drop ((natChars m.natAbs).length - (-e).toNat)
                  ++ c0 :: rest)) := by
            unfold decChars
            rw [if_pos hneg, hdec]
            simp [List.append_assoc]
          rw [hsign,
            parseJsonNumber_frac_neg _ _ c0 rest hI hIne hF hFne hlead hc0 he hE, hval]
          have habs : ((m.natAbs : ℤ)) = -m := by omega
          have hex : (0 : ℤ) - (((natChars m.natAbs).drop
              ((natChars m.natAbs).length - (-e).toNat)).length : ℤ) = e := by
            rw [hlenF]; omega
          rw [hex, habs]
          have : -(-m) = m := by ring
          rw [this, mkDec_canon e hc10]
        · have hsign : decChars m e ++ c0 :: rest
              = (natChars m.natAbs).take ((natChars m.natAbs).length - (-e).toNat)
                ++ '.' :: ((natChars m.natAbs).drop ((natChars m.natAbs).length - (-e).toNat)
                  ++ c0 :: rest) := by
            unfold decChars
            rw [if_neg hneg, hdec]
            simp [List.append_assoc]
          rw [hsign,
            parseJsonNumber_frac_pos _ _ c0 rest hI hIne hF hFne hlead hc0 he hE, hval]
          have habs : ((m.natAbs : ℤ)) = m := by omega
          have hex : (0 : ℤ) - (((natChars m.natAbs).drop
              ((natChars m.natAbs).length - (-e).toNat)).length : ℤ) = e := by
            rw [hlenF]; omega
          rw [hex, habs, mkDec_canon e hc10]
      · -- point left of the digit string: 0.00...digits
        have hdec : decCharsNat m.natAbs e
            = '0' :: '.' :: (List.replicate ((-e).toNat - (natChars m.natAbs).length) '0'
              ++ natChars m.natAbs) := by
          simp only [decCharsNat]
          rw [if_neg hE0, if_neg hk]
        have hF : ∀ c ∈ List.replicate ((-e).toNat - (natChars m.natAbs).length) '0'
            ++ natChars m.natAbs, isDig c = true := by
          intro c hcm
          rcases List.mem_append.mp hcm with h | h
          · rw [List.eq_of_mem_replicate h]; rfl
          · exact natChars_mem_isDig _ c h
        have hFne : List.replicate ((-e).toNat - (natChars m.natAbs).length) '0'
            ++ natChars m.natAbs ≠ [] := by
          simp [natChars_ne_nil m.natAbs]
        have hlenF : (List.replicate ((-e).toNat - (natChars m.natAbs).length) '0'
            ++ natChars m.natAbs).length = (-e).toNat := by
          rw [List.length_append, List.length_replicate]
          omega
        have hvalF : (valDigits (List.replicate ((-e).toNat - (natChars m.natAbs).length) '0'
            ++ natChars m.natAbs) : ℤ) = (m.natAbs : ℤ) := by
          rw [valDigits_replicate_zero_append, natChars_val]
        by_cases hneg : m < 0
        · have hsign : decChars m e ++ c0 :: rest
              = '-' :: (['0'] ++ '.' :: ((List.replicate
                  ((-e).toNat - (natChars m.natAbs).length) '0'
                ++ natChars m.natAbs) ++ c0 :: rest)) := by
            unfold decChars
            rw [if_pos hneg, hdec]
            simp
          rw [hsign,
            parseJsonNumber_frac_neg ['0'] _ c0 rest (by decide) (by decide) hF hFne
              (by decide) hc0 he hE, hvalF]
          have habs : ((m.natAbs : ℤ)) = -m := by omega
          have hex : (0 : ℤ) - ((List.replicate ((-e).toNat - (natChars m.natAbs).length) '0'
              ++ natChars m.natAbs).length : ℤ) = e := by
            rw [hlenF]; omega
          rw [hex, habs]
          have hv0 : (valDigits ['0'] : ℤ) = 0 := rfl
          rw [hv0]
          have : -((0 : ℤ) * 10 ^ (List.replicate ((-e).toNat - (natChars m.natAbs).length) '0'
              ++ natChars m.natAbs).length + -m) = m := by ring
          rw [this, mkDec_canon e hc10]
        · have hsign : decChars m e ++ c0 :: rest
              = ['0'] ++ '.' :: ((List.replicate
                  ((-e).toNat - (natChars m.natAbs).length) '0'
                ++ natChars m.natAbs) ++ c0 :: rest) := by
            unfold decChars
            rw [if_neg hneg, hdec]
            simp
          rw [hsign,
            parseJsonNumber_frac_pos ['0'] _ c0 rest (by decide) (by decide) hF hFne
              (by decide) hc0 he hE, hvalF]
          have habs : ((m.natAbs : ℤ)) = m := by omega
          have hex : (0 : ℤ) - ((List.replicate ((-e).toNat - (natChars m.natAbs).length) '0'
              ++ natChars m.natAbs).length : ℤ) = e := by
            rw [hlenF]; omega
          rw [hex, habs]
          have hv0 : (valDigits ['0'] : ℤ) = 0 := rfl
          rw [hv0]
          have : ((0 : ℤ) * 10 ^ (List.replicate ((-e).toNat - (natChars m.natAbs).length) '0'
              ++ natChars m.natAbs).length + m) = m := by ring
          rw [this, mkDec_canon e hc10]

set_option maxHeartbeats 1600000 in
theorem parseCore_value_other (fuel : ℕ) (c1 : Char) (t : List Char)
    (hws : isJsonWs c1 = false) (hbrace : c1 ≠ '\x7b') (hbrack : c1 ≠ '[')
    (hquot : c1 ≠ '"') (ht : c1 ≠ 't') (hf : c1 ≠ 'f') (hn : c1 ≠ 'n') :
    parseCore (fuel+1) .value (c1 :: t) =
      (parseJsonNumber (c1 :: t)).map (fun p => (Json.num p.1, p.2)) := by
  rw [parseCore]
  rw [show skipWs (c1 :: t) = c1 :: t from by simp [skipWs, List.dropWhile_cons, hws]]
  split
  all_goals
    first
    | (rename_i heq
       injection heq with h1 _
       first
       | exact absurd h1 hbrace
       | exact absurd h1 hbrack
       | exact absurd h1 hquot
       | exact absurd h1 ht
       | exact absurd h1 hf
       | exact absurd h1 hn)
    | rfl


theorem skipWs_nonws {c : Char} (h : isJsonWs c = false) (l : List Char) :
    skipWs (c :: l) = c :: l := by
  simp [skipWs, List.dropWhile_cons, h]

theorem escape_fuel_ok (s rest : List Char) :
    s.length + 1 ≤ (escapeStr s ++ '"' :: rest).length + 1 := by
  have := escapeStr_length_ge s
  simp only [List.length_append, List.length_cons]
  omega

theorem parseCore_member_str_comma (F : ℕ) (acc : JsonObj) (k s Y : List Char) :
    parseCore (F+2) (.objM acc)
      ('"' :: (escapeStr k ++ ('"' :: ':' :: '"' :: (escapeStr s ++ ('"' :: ',' :: Y)))))
    = parseCore (F+1) (.objM (.cons (String.mk k) (.str (String.mk s)) acc)) Y := by
  rw [show F + 2 = (F+1)+1 from rfl, parseCore]
  rw [skipWs_nonws (by decide)]
  simp only []
  rw [parseStrBody_escape k _ _ (escape_fuel_ok _ _)]
  simp only []
  rw [skipWs_nonws (by decide)]
  simp only []
  rw [parseCore]
  rw [skipWs_nonws (by decide)]
  simp only []
  rw [parseStrBody_escape s _ _ (escape_fuel_ok _ _)]
  simp only [Option.map]
  rw [skipWs_nonws (by decide)]
  simp only []

theorem parseCore_member_str_close (F : ℕ) (acc : JsonObj) (k s : List Char) :
    parseCore (F+2) (.objM acc)
      ('"' :: (escapeStr k ++ ('"' :: ':' :: '"' :: (escapeStr s ++ ('"' :: ['\x7d'])))))
    = some (.obj (JsonObj.reverse (.cons (String.mk k) (.str (String.mk s)) acc)), []) := by
  rw [show F + 2 = (F+1)+1 from rfl, parseCore]
  rw [skipWs_nonws (by decide)]
  simp only []
  rw [parseStrBody_escape k _ _ (escape_fuel_ok _ _)]
  simp only []
  rw [skipWs_nonws (by decide)]
  simp only []
  rw [parseCore]
  rw [skipWs_nonws (by decide)]
  simp only []
  rw [parseStrBody_escape s _ _ (escape_fuel_ok _ _)]
  simp only [Option.map]
  rw [skipWs_nonws (by decide)]
  simp only []

theorem decCharsNat_head (n : ℕ) (e : ℤ) :
    ∃ c t, decCharsNat n e = c :: t ∧ isDig c = true := by
  simp only [decCharsNat]
  by_cases he : 0 ≤ e
  · rw [if_pos he]
    obtain ⟨c, rest, hc, hd⟩ := natChars_cons n
    exact ⟨c, rest ++ List.replicate e.toNat '0', by rw [hc, List.cons_append], hd⟩
  · rw [if_neg he]
    by_cases hk : (-e).toNat < (natChars n).length
    · rw [if_pos hk]
      obtain ⟨c, rest, hc, hd⟩ := natChars_cons n
      obtain ⟨s, hs⟩ : ∃ s, (natChars n).length - (-e).toNat = s + 1 :=
        ⟨(natChars n).length - (-e).toNat - 1, by omega⟩
      refine ⟨c, rest.take s ++ '.' :: rest.drop s, ?_, hd⟩
      rw [hs, hc, List.take_succ_cons, List.drop_succ_cons, List.cons_append]
    · rw [if_neg hk]
      exact ⟨'0', _, rfl, by decide⟩

theorem isDig_facts {c : Char} (h : isDig c = true) :
    isJsonWs c = false ∧ c ≠ '\x7b' ∧ c ≠ '[' ∧ c ≠ '"' ∧ c ≠ 't' ∧ c ≠ 'f' ∧ c ≠ 'n' := by
  refine ⟨?_, ?_, ?_, ?_, ?_, ?_, ?_⟩
  · by_contra hw
    have hw' : isJsonWs c = true := by
      cases hx : isJsonWs c
      · exact absurd hx hw
      · rfl
    simp only [isJsonWs, Bool.or_eq_true, decide_eq_true_eq] at hw'
    rcases hw' with ((h1 | h1) | h1) | h1 <;> (subst h1; exact absurd h (by decide))
  all_goals (intro heq; subst heq; exact absurd h (by decide))

theorem decChars_head_facts (m e : ℤ) :
    ∃ c t, decChars m e = c :: t ∧ isJsonWs c = false ∧ c ≠ '\x7b' ∧ c ≠ '[' ∧
      c ≠ '"' ∧ c ≠ 't' ∧ c ≠ 'f' ∧ c ≠ 'n' := by
  unfold decChars
  by_cases hm : m < 0
  · rw [if_pos hm]
    exact ⟨'-', decCharsNat m.natAbs e, rfl, by decide, by decide, by decide, by decide,
      by decide, by decide, by decide⟩
  · rw [if_neg hm]
    obtain ⟨c, t, hct, hd⟩ := decCharsNat_head m.natAbs e
    obtain ⟨hw, h1, h2, h3, h4, h5, h6⟩ := isDig_facts hd
    exact ⟨c, t, by rw [List.nil_append, hct], hw, h1, h2, h3, h4, h5, h6⟩

theorem parseCore_member_num (F : ℕ) (acc : JsonObj) (k : List Char) (d : Dec)
    (hcan : d.isCanon) (Y : List Char) :
    parseCore (F+2) (.objM acc)
      ('"' :: (escapeStr k ++ ('"' :: ':' :: (decChars d.m d.e ++ (',' :: Y)))))
    = parseCore (F+1) (.objM (.cons (String.mk k) (.num d) acc)) Y := by
  rw [show F + 2 = (F+1)+1 from rfl, parseCore]
  rw [skipWs_nonws (by decide)]
  simp only []
  rw [parseStrBody_escape k _ _ (escape_fuel_ok _ _)]
  simp only []
  rw [skipWs_nonws (by decide)]
  simp only []
  obtain ⟨c1, t1, hdh, hws, hb1, hb2, hb3, hb4, hb5, hb6⟩ := decChars_head_facts d.m d.e
  rw [hdh, List.cons_append, parseCore_value_other F c1 _ hws hb1 hb2 hb3 hb4 hb5 hb6,
    ← List.cons_append, ← hdh,
    parseJsonNumber_decChars d hcan ',' Y (by decide) (by decide) (by decide) (by decide)]
  simp only [Option.map]
  rw [skipWs_nonws (by decide)]
  simp only []

theorem parseCore_value_openBrace (F : ℕ) (l : List Char) :
    parseCore (F+1) .value ('\x7b' :: l) = parseCore F .obj0 l := by
  rw [parseCore, skipWs_nonws (by decide)]
  rfl

theorem parseCore_obj0_quote (F : ℕ) (l : List Char) :
    parseCore (F+1) .obj0 ('"' :: l) = parseCore F (.objM .nil) ('"' :: l) := by
  rw [parseCore, skipWs_nonws (by decide)]
  rfl

theorem parseCore_caption (F : ℕ) (d : Dec) (hcan : d.isCanon) (tt bt : List Char) :
    parseCore (F + 8) .value
      ('\x7b' :: '"' :: (escapeStr "image".data ++ ('"' :: ':' :: (decChars d.m d.e ++ (',' :: ('"' :: (escapeStr "topText".data ++ ('"' :: ':' :: '"' :: (escapeStr tt ++ ('"' :: ',' :: ('"' :: (escapeStr "bottomText".data ++ ('"' :: ':' :: '"' :: (escapeStr bt ++ ('"' :: ['\x7d'])))))))))))))))
    = some (.obj (.cons "image" (.num d) (.cons "topText" (.str (String.mk tt))
        (.cons "bottomText" (.str (String.mk bt)) .nil))), []) := by
  rw [show F + 8 = (F+7)+1 from rfl, parseCore_value_openBrace]
  rw [show F + 7 = (F+6)+1 from rfl, parseCore_obj0_quote]
  rw [show F + 6 = (F+4)+2 from rfl, parseCore_member_num (F+4) .nil "image".data d hcan _]
  rw [show (F+4) + 1 = (F+3)+2 from rfl,
    parseCore_member_str_comma (F+3) _ "topText".data tt _]
  rw [show (F+3) + 1 = (F+2)+2 from rfl,
    parseCore_member_str_close (F+2) _ "bottomText".data bt]
  rfl

theorem btRunOk_quote (s ys : List Char) (hs : btRunOk 0 s = true)
    (hys : btRunOk 0 ys = true) :
    btRunOk 0 (('"' :: (escapeStr s ++ ['"'])) ++ ys) = true := by
  rw [List.cons_append, List.append_assoc]
  rw [btRunOk_step_nonbt (by decide)]
  refine btRunOk_escape s 0 (['"'] ++ ys) (by omega) hs ?_
  intro j hj
  rw [btRunOk_append_noBt_ne_nil ['"'] ys j (by decide) (by decide)]
  exact hys

theorem stringify_noTriple (d : Dec) (T B : String)
    (ht : hasTriple T.data = false) (hb : hasTriple B.data = false) :
    hasTriple (stringifyCaption ⟨.fin d, T, B⟩).data = false := by
  apply noTriple_of_btRunOk _ 0
  show btRunOk 0 ("\x7b\"image\":".data ++ jsNumJsonChars (.fin d) ++
    (",\"topText\":".data ++ quoteStr T ++
      (",\"bottomText\":".data ++ quoteStr B ++ ['\x7d']))) = true
  simp only [List.append_assoc]
  rw [btRunOk_zero_append_noBt _ _ (by decide)]
  rw [show jsNumJsonChars (.fin d) = decChars d.m d.e from rfl]
  rw [btRunOk_zero_append_noBt _ _ (noBt_decChars d.m d.e)]
  rw [btRunOk_zero_append_noBt _ _ (by decide)]
  rw [show quoteStr T = '"' :: (escapeStr T.data ++ ['"']) from rfl]
  refine btRunOk_quote T.data _ (btRunOk_of_noTriple ht) ?_
  rw [btRunOk_zero_append_noBt _ _ (by decide)]
  rw [show quoteStr B = '"' :: (escapeStr B.data ++ ['"']) from rfl]
  exact btRunOk_quote B.data _ (btRunOk_of_noTriple hb) (by decide)

theorem trimBoth_of_ends {l : List Char} (c1 c2 : Char) (t1 t2 : List Char)
    (hhead : l = c1 :: t1) (hrev : l.reverse = c2 :: t2)
    (h1 : isJsWs c1 = false) (h2 : isJsWs c2 = false) : trimBoth l = l := by
  unfold trimBoth
  rw [hhead, List.dropWhile_cons, h1]
  simp +decide only [if_false]
  rw [← hhead, hrev, List.dropWhile_cons, h2]
  simp +decide only [if_false]
  rw [← hrev, List.reverse_reverse]

theorem stringifyCaption_shape (d : Dec) (T B : String) :
    (stringifyCaption ⟨.fin d, T, B⟩).data
      = ('\x7b' :: '"' :: (escapeStr "image".data ++ ('"' :: ':' :: (decChars d.m d.e ++ (',' :: ('"' :: (escapeStr "topText".data ++ ('"' :: ':' :: '"' :: (escapeStr T.data ++ ('"' :: ',' :: ('"' :: (escapeStr "bottomText".data ++ ('"' :: ':' :: '"' :: (escapeStr B.data ++ ('"' :: ['\x7d']))))))))))))))) := by
  rw [show escapeStr "image".data = "image".data from rfl,
    show escapeStr "topText".data = "topText".data from rfl,
    show escapeStr "bottomText".data = "bottomText".data from rfl]
  simp [stringifyCaption, quoteStr, List.append_assoc]
  rfl

theorem parseJsonChars_caption (d : Dec) (hcan : d.isCanon) (T B : String) :
    parseJsonChars (stringifyCaption ⟨.fin d, T, B⟩).data
    = some (.obj (.cons "image" (.num d) (.cons "topText" (.str (String.mk T.data))
        (.cons "bottomText" (.str (String.mk B.data)) .nil)))) := by
  rw [stringifyCaption_shape d T B]
  unfold parseJsonChars
  rw [parseCore_caption _ d hcan T.data B.data]
  rfl

/-- Claim C6 (corrected): caption parsing inverts JSON serialization for every
caption whose `image` field is a finite number in canonical decimal form and
whose two text fields contain no run of three consecutive backticks.  (The
original claim, quantified over all valid captions, is refuted by
`C6_counterexample`: the fence-stripping `replace` calls delete backtick
triples inside string literals before `JSON.parse` runs.) -/
theorem C6_amended_caption_roundtrip (c : MemeCaption) (d : Dec)
    (him : c.image = .fin d) (hcan : d.isCanon)
    (ht : hasTriple c.topText.data = false) (hb : hasTriple c.bottomText.data = false) :
    parseMemeCaption (stringifyCaption c) = some c := by
  obtain ⟨img, T, B⟩ := c
  have him' : img = JsNum.fin d := him
  subst him'
  have ht' : hasTriple T.data = false := ht
  have hb' : hasTriple B.data = false := hb
  have hnt := stringify_noTriple d T B ht' hb'
  obtain ⟨t2, hrev⟩ : ∃ t2,
      (stringifyCaption ⟨.fin d, T, B⟩).data.reverse = '\x7d' :: t2 :=
    ⟨_, by simp [stringifyCaption, quoteStr, List.reverse_append]; rfl⟩
  simp only [parseMemeCaption]
  rw [replaceFenceJson_id _ hnt, replaceFence_id _ hnt,
    trimBoth_of_ends '\x7b' '\x7d' _ _
      (show (stringifyCaption ⟨.fin d, T, B⟩).data
        = '\x7b' :: ((stringifyCaption ⟨.fin d, T, B⟩).data).tail from rfl)
      hrev (by decide) (by decide)]
  rw [parseJsonChars_caption d hcan T B]
  rfl

/-- Claim C6, counterexample to the original statement: the valid caption
with topText consisting of three backticks does not survive the round trip —
the parse returns a caption whose topText is empty instead. -/
theorem C6_counterexample :
    parseMemeCaption (stringifyCaption ⟨.fin ⟨1, 0⟩, "```", "b"⟩)
      = some ⟨.fin ⟨1, 0⟩, "", "b"⟩ ∧
    parseMemeCaption (stringifyCaption ⟨.fin ⟨1, 0⟩, "```", "b"⟩)
      ≠ some ⟨.fin ⟨1, 0⟩, "```", "b"⟩ := by
  constructor
  · rfl
  · decide

/-- Witness for `C6_amended_caption_roundtrip` at a concrete caption whose
serialization exercises a fractional number, escaped quote, newline escape and
a single (harmless) backtick. -/
theorem C6_witness :
    parseMemeCaption (stringifyCaption ⟨.fin ⟨371, -2⟩, "Top \"A\"\n", "b`c"⟩)
      = some ⟨.fin ⟨371, -2⟩, "Top \"A\"\n", "b`c"⟩ :=
  C6_amended_caption_roundtrip _ ⟨371, -2⟩ rfl (by decide) (by decide) (by decide)

end Memegen
